import Mathlib

/-!
Shallow embedding of `django_simple_bulma/css_variables.py`.

The Python module converts legacy SASS variables to CSS custom-property
declarations.  Its functions are pure string/number transforms:

* `hex_to_hsl`    : hex or named color string → (hue, saturation, lightness)
* `is_color_value`: heuristic color classifier (two regexes + a name set)
* `get_variable_mapping` : fixed name table
* `convert_sass_variables_to_css` : mapping → CSS `:root` block

Modelling choices (all stated against the source, not the spec):
* Python `float` arithmetic is modelled by exact rationals `ℚ`.  All channel
  values are small dyadic-free fractions `k/255`; no claim below depends on a
  value where IEEE-754 double rounding could diverge from the exact value at a
  round-to-nearest tie.
* Python `round` (banker's rounding, ties to even) is `pyround`.
* Python `int(s, 16)` for the 2-character slices used here is `pyIntHex16`:
  it strips surrounding whitespace, accepts an optional sign, and then
  requires a nonempty run of hex digits.  (Underscore separators, which
  Python also accepts, are impossible in numerals of length ≤ 2, and
  whitespace is modelled as ASCII whitespace.)
* `str.lower` is modelled on ASCII (`pyLower`), matching the repertoire the
  module's own data uses.
* `ValueError` and `ZeroDivisionError` are the `PyErr` constructors; Python
  dicts are association lists iterated in insertion order.
-/

inductive PyErr where
  | valueError : PyErr
  | zeroDivisionError : PyErr
deriving DecidableEq

/-- ASCII whitespace stripped by Python's `int` and matched by `\s`. -/
def isPySpace (c : Char) : Bool :=
  c = ' ' || c = '\t' || c = '\n' || c = '\r' || c = '\x0b' || c = '\x0c'

/-- The characters accepted as base-16 digits (`[0-9a-fA-F]`). -/
def isHexDigit (c : Char) : Bool :=
  (decide ('0' ≤ c) && decide (c ≤ '9')) ||
  (decide ('a' ≤ c) && decide (c ≤ 'f')) ||
  (decide ('A' ≤ c) && decide (c ≤ 'F'))

/-- Numeric value of a hex digit. -/
def hexVal (c : Char) : Nat :=
  if '0' ≤ c ∧ c ≤ '9' then c.toNat - 48
  else if 'a' ≤ c ∧ c ≤ 'f' then c.toNat - 87
  else if 'A' ≤ c ∧ c ≤ 'F' then c.toNat - 55
  else 0

/-- Value of a run of hex digits, most significant first. -/
def hexDigitsVal (ds : List Char) : Nat :=
  ds.foldl (fun a c => 16 * a + hexVal c) 0

/-- Strip ASCII whitespace from both ends, as Python's `int(str, base)` does. -/
def stripWs (cs : List Char) : List Char :=
  ((cs.dropWhile isPySpace).reverse.dropWhile isPySpace).reverse

/-- Model of Python `int(s, 16)` restricted to numerals without underscores
(faithful for the length-≤-2 slices this module parses): optional surrounding
ASCII whitespace, optional sign, then a nonempty run of hex digits. -/
def pyIntHex16 (cs : List Char) : Except PyErr Int :=
  match stripWs cs with
  | [] => .error .valueError
  | c :: ds =>
    if c = '-' then
      if ds ≠ [] ∧ ds.all isHexDigit then .ok (-(hexDigitsVal ds : Int))
      else .error .valueError
    else if c = '+' then
      if ds ≠ [] ∧ ds.all isHexDigit then .ok ((hexDigitsVal ds : Int))
      else .error .valueError
    else
      if (c :: ds).all isHexDigit then .ok ((hexDigitsVal (c :: ds) : Int))
      else .error .valueError

/-- ASCII lowercasing, the fragment of Python `str.lower` exercised here. -/
def pyLower (c : Char) : Char :=
  if 65 ≤ c.toNat ∧ c.toNat ≤ 90 then Char.ofNat (c.toNat + 32) else c

def lowerL (cs : List Char) : List Char := cs.map pyLower

/-- The `named_colors` dict inside `hex_to_hsl`. -/
def namedColors : List (List Char × List Char) :=
  [("white".data, "#ffffff".data), ("black".data, "#000000".data),
   ("red".data, "#ff0000".data), ("green".data, "#00ff00".data),
   ("blue".data, "#0000ff".data), ("yellow".data, "#ffff00".data),
   ("cyan".data, "#00ffff".data), ("magenta".data, "#ff00ff".data),
   ("orange".data, "#ffa500".data), ("purple".data, "#800080".data),
   ("pink".data, "#ffc0cb".data), ("brown".data, "#a52a2a".data),
   ("gray".data, "#808080".data), ("grey".data, "#808080".data)]

/-- Association-list lookup with decidable key equality (Python dict `[]`). -/
def lookupL (k : List Char) : List (List Char × List Char) → Option (List Char)
  | [] => none
  | (k', v) :: rest => if k = k' then some v else lookupL k rest

/-- `hex_color = named_colors[hex_color.lower()]` when present. -/
def substNamed (cs : List Char) : List Char :=
  match lookupL (lowerL cs) namedColors with
  | some v => v
  | none => cs

/-- `hex_color.lstrip('#')` followed by the 3-character doubling. -/
def stripAndExpand (cs : List Char) : List Char :=
  let b := cs.dropWhile (fun c => c = '#')
  if b.length = 3 then (b.map (fun c => [c, c])).flatten else b

/-- Full input normalization performed by `hex_to_hsl` before parsing. -/
def normalizeHex (cs : List Char) : List Char :=
  stripAndExpand (substNamed cs)

/-- The three `int(hex_color[i:i+2], 16)` parses, guarded by the length test. -/
def parse3 (n : List Char) : Except PyErr (Int × Int × Int) :=
  if n.length = 6 then
    match pyIntHex16 (n.take 2), pyIntHex16 ((n.drop 2).take 2),
          pyIntHex16 ((n.drop 4).take 2) with
    | .ok r, .ok g, .ok b => .ok (r, g, b)
    | _, _, _ => .error .valueError
  else .error .valueError

/-- Python `round`: nearest integer, ties to the even integer. -/
def pyround (q : ℚ) : ℤ :=
  if q - ⌊q⌋ < 1/2 then ⌊q⌋
  else if 1/2 < q - ⌊q⌋ then ⌊q⌋ + 1
  else if ⌊q⌋ % 2 = 0 then ⌊q⌋ else ⌊q⌋ + 1

/-- The RGB→HSL block of `hex_to_hsl`, on exact rationals.  Python raises
`ZeroDivisionError` on a zero denominator, which the source never guards. -/
def hslTriple (red green blue : ℚ) : Except PyErr (Int × Int × Int) :=
  let maxV := max red (max green blue)
  let minV := min red (min green blue)
  let diff := maxV - minV
  let lightness := (maxV + minV) / 2
  if diff = 0 then .ok (0, 0, pyround (lightness * 100))
  else
    let satDen := if lightness < 1/2 then maxV + minV else 2 - maxV - minV
    if satDen = 0 then .error .zeroDivisionError
    else
      let saturation := diff / satDen
      let hue0 :=
        if maxV = red then (green - blue) / diff + (if green < blue then 6 else 0)
        else if maxV = green then (blue - red) / diff + 2
        else (red - green) / diff + 4
      let hue := hue0 / 6
      .ok (pyround (hue * 360), pyround (saturation * 100),
           pyround (lightness * 100))

def hslFromRGB (ri gi bi : Int) : Except PyErr (Int × Int × Int) :=
  hslTriple ((ri : ℚ) / 255) ((gi : ℚ) / 255) ((bi : ℚ) / 255)

def hexToHslCore (cs : List Char) : Except PyErr (Int × Int × Int) :=
  match parse3 (normalizeHex cs) with
  | .ok (r, g, b) => hslFromRGB r g b
  | .error e => .error e

/-- `hex_to_hsl` from the source: named-color substitution, `#` stripping,
3-digit expansion, a 6-character check, three base-16 parses, then RGB→HSL. -/
def hex_to_hsl (s : String) : Except PyErr (Int × Int × Int) :=
  hexToHslCore s.data

/-- Body accepted by `[0-9a-fA-F]{3,6}` in the hex regex. -/
def hexBody (cs : List Char) : Bool :=
  decide (3 ≤ cs.length) && decide (cs.length ≤ 6) && cs.all isHexDigit

/-- `re.match(r'^#[0-9a-fA-F]{3,6}$', value)`: anchored at the start; `$`
matches the end of the string or just before one final newline. -/
def matchesHexRegex (cs : List Char) : Bool :=
  match cs with
  | '#' :: rest =>
      hexBody rest ||
      (match rest.getLast? with
       | some c => c = '\n' && hexBody rest.dropLast
       | none => false)
  | _ => false

/-- `\s*\(` applied at a position: skip ASCII whitespace, require `(`. -/
def parenAfterWs (cs : List Char) : Bool :=
  match cs.dropWhile isPySpace with
  | '(' :: _ => true
  | _ => false

/-- `re.match(r'^(hsl|rgb|hsla|rgba)\s*\(', value.lower())`, with regex
backtracking across the alternation. -/
def matchesFuncRegex (cs : List Char) : Bool :=
  ("hsl".data.isPrefixOf cs && parenAfterWs (cs.drop 3)) ||
  ("rgb".data.isPrefixOf cs && parenAfterWs (cs.drop 3)) ||
  ("hsla".data.isPrefixOf cs && parenAfterWs (cs.drop 4)) ||
  ("rgba".data.isPrefixOf cs && parenAfterWs (cs.drop 4))

/-- The named-color set in `is_color_value` (same 14 names as the dict). -/
def namedColorNames : List (List Char) := namedColors.map Prod.fst

def isColorValueCore (cs : List Char) : Bool :=
  matchesHexRegex cs || namedColorNames.contains (lowerL cs) ||
  matchesFuncRegex (lowerL cs)

/-- `is_color_value` from the source: hex regex, named set, function regex. -/
def is_color_value (s : String) : Bool := isColorValueCore s.data

/-- `get_variable_mapping` from the source, reproduced verbatim. -/
def get_variable_mapping : List (String × String) :=
  [("primary", "--bulma-primary"), ("link", "--bulma-link"),
   ("info", "--bulma-info"), ("success", "--bulma-success"),
   ("warning", "--bulma-warning"), ("danger", "--bulma-danger"),
   ("white", "--bulma-white"), ("black", "--bulma-black"),
   ("light", "--bulma-light"), ("dark", "--bulma-dark"),
   ("family-primary", "--bulma-family-primary"),
   ("family-secondary", "--bulma-family-secondary"),
   ("family-code", "--bulma-family-code"),
   ("size-1", "--bulma-size-1"), ("size-2", "--bulma-size-2"),
   ("size-3", "--bulma-size-3"), ("size-4", "--bulma-size-4"),
   ("size-5", "--bulma-size-5"), ("size-6", "--bulma-size-6"),
   ("size-7", "--bulma-size-7"), ("size-small", "--bulma-size-small"),
   ("size-normal", "--bulma-size-normal"),
   ("size-medium", "--bulma-size-medium"),
   ("size-large", "--bulma-size-large"),
   ("weight-light", "--bulma-weight-light"),
   ("weight-normal", "--bulma-weight-normal"),
   ("weight-medium", "--bulma-weight-medium"),
   ("weight-semibold", "--bulma-weight-semibold"),
   ("weight-bold", "--bulma-weight-bold"),
   ("weight-extrabold", "--bulma-weight-extrabold"),
   ("radius", "--bulma-radius"), ("radius-small", "--bulma-radius-small"),
   ("radius-medium", "--bulma-radius-medium"),
   ("radius-large", "--bulma-radius-large"),
   ("radius-rounded", "--bulma-radius-rounded"),
   ("block-spacing", "--bulma-block-spacing"),
   ("duration", "--bulma-duration"), ("easing", "--bulma-easing"),
   ("speed", "--bulma-speed")]

/-- Association-list lookup with string keys (`variable_mapping.get`). -/
def lookupVar (k : String) : List (String × String) → Option String
  | [] => none
  | (k', v) :: rest => if k = k' then some v else lookupVar k rest

/-- `variable_mapping.get(sass_var)` with the `--bulma-{sass_var}` fallback
(no mapping value is empty, so Python truthiness agrees with `Option`). -/
def cssVarFor (sassVar : String) : String :=
  match lookupVar sassVar get_variable_mapping with
  | some v => v
  | none => "--bulma-" ++ sassVar

/-- Decimal digit character (only applied to numbers below ten). -/
def digitChar (n : Nat) : Char :=
  if n = 0 then '0' else if n = 1 then '1' else if n = 2 then '2'
  else if n = 3 then '3' else if n = 4 then '4' else if n = 5 then '5'
  else if n = 6 then '6' else if n = 7 then '7' else if n = 8 then '8'
  else '9'

/-- Fuelled decimal printer (fuel `n + 1` always suffices). -/
def natToCharsAux : Nat → Nat → List Char
  | 0, _ => []
  | fuel + 1, n =>
    if n < 10 then [digitChar n]
    else natToCharsAux fuel (n / 10) ++ [digitChar (n % 10)]

def natToChars (n : Nat) : List Char := natToCharsAux (n + 1) n

/-- Python `str` of an `int`, as used by the f-strings in `convert`. -/
def intToStr (i : Int) : String :=
  match i with
  | .ofNat m => ⟨natToChars m⟩
  | .negSucc m => ⟨'-' :: natToChars (m + 1)⟩

/-- One iteration of the loop body of `convert_sass_variables_to_css`:
the declarations contributed by a single `(sass_var, value)` pair.  The
`except (ValueError, TypeError)` clause does not catch `ZeroDivisionError`,
which therefore propagates. -/
def convertEntry (sassVar value : String) : Except PyErr (List String) :=
  let cssVar := cssVarFor sassVar
  if is_color_value value then
    match hex_to_hsl value with
    | .ok (h, s, l) =>
        .ok ["  " ++ cssVar ++ "-h: " ++ intToStr h ++ "deg;",
             "  " ++ cssVar ++ "-s: " ++ intToStr s ++ "%;",
             "  " ++ cssVar ++ "-l: " ++ intToStr l ++ "%;"]
    | .error .valueError => .ok ["  " ++ cssVar ++ ": " ++ value ++ ";"]
    | .error .zeroDivisionError => .error .zeroDivisionError
  else .ok ["  " ++ cssVar ++ ": " ++ value ++ ";"]

/-- The whole loop, in insertion order; the first uncaught exception wins. -/
def convertDecls : List (String × String) → Except PyErr (List String)
  | [] => .ok []
  | (n, v) :: rest =>
    match convertEntry n v, convertDecls rest with
    | .ok d, .ok ds => .ok (d ++ ds)
    | .error e, _ => .error e
    | .ok _, .error e => .error e

/-- `"\n".join(css_declarations)`. -/
def joinLines : List String → String
  | [] => ""
  | [d] => d
  | d :: rest => d ++ "\n" ++ joinLines rest

/-- `convert_sass_variables_to_css` from the source. -/
def convert_sass_variables_to_css (vars : List (String × String)) :
    Except PyErr String :=
  if vars.isEmpty then .ok ""
  else
    match convertDecls vars with
    | .error e => .error e
    | .ok ds =>
        .ok (if ds.isEmpty then ""
             else ":root \x7b\n" ++ joinLines ds ++ "\n\x7d\n")

deriving instance DecidableEq for Except

/-- The classifier exactly as the claim words it: `#` plus exactly 3 or 6 hex
digits, the named set, or a literal `hsl(`/`hsla(`/`rgb(`/`rgba(` beginning. -/
def isColorValueClaimed (s : String) : Bool :=
  (match s.data with
   | '#' :: ds => (decide (ds.length = 3) || decide (ds.length = 6)) && ds.all isHexDigit
   | _ => false) ||
  namedColorNames.contains (lowerL s.data) ||
  (["hsl(", "hsla(", "rgb(", "rgba("].any
    fun p => p.data.isPrefixOf (lowerL s.data))

/-- Hex alternative as the code actually behaves: 3–6 digits, and `$` also
matches just before one trailing newline. -/
def HexPatternSpec (s : String) : Prop :=
  ∃ ds opt, s.data = '#' :: (ds ++ opt) ∧ 3 ≤ ds.length ∧ ds.length ≤ 6 ∧
    (∀ c ∈ ds, isHexDigit c = true) ∧ (opt = [] ∨ opt = ['\n'])

/-- Function-notation alternative as the code actually behaves: prefix name,
optional whitespace, opening parenthesis. -/
def FuncNotationSpec (s : String) : Prop :=
  ∃ p ws rest, p ∈ ["hsl", "hsla", "rgb", "rgba"] ∧
    lowerL s.data = p.data ++ ws ++ '(' :: rest ∧ ∀ c ∈ ws, isPySpace c = true

/-- The corrected description of `is_color_value`. -/
def IsColorValueSpec (s : String) : Prop :=
  HexPatternSpec s ∨ lowerL s.data ∈ namedColorNames ∨ FuncNotationSpec s

/-- A string containing neither `\x7b` nor `\x7d`. -/
def braceFree (s : String) : Prop :=
  s.data.count '\x7b' = 0 ∧ s.data.count '\x7d' = 0

/-- Substring test (model of Python `in` for strings). -/
def hasSub (needle : List Char) : List Char → Bool
  | [] => needle.isEmpty
  | c :: rest => needle.isPrefixOf (c :: rest) || hasSub needle rest

/-! ### Helper lemmas about `pyround` -/

lemma floor_le_pyround (q : ℚ) : ⌊q⌋ ≤ pyround q := by
  unfold pyround
  split_ifs <;> omega

lemma pyround_le_ceil (q : ℚ) : pyround q ≤ ⌈q⌉ := by
  have hfc : ⌊q⌋ ≤ ⌈q⌉ := Int.floor_le_ceil q
  have key : ∀ hh : ¬ q - ⌊q⌋ < 1/2, ⌊q⌋ + 1 ≤ ⌈q⌉ := by
    intro hh
    have h1 : (⌊q⌋ : ℚ) < q := by
      have := Int.floor_le q
      by_contra hcon
      push_neg at hcon
      have : (⌊q⌋ : ℚ) = q := le_antisymm this hcon
      apply hh
      rw [← this]
      norm_num
    have : ⌊q⌋ < ⌈q⌉ := Int.lt_ceil.mpr h1
    omega
  unfold pyround
  split_ifs with h1 h2 h3
  · exact hfc
  · exact key h1
  · exact hfc
  · exact key h1

lemma le_pyround (n : ℤ) (q : ℚ) (h : (n : ℚ) ≤ q) : n ≤ pyround q :=
  le_trans (Int.le_floor.mpr h) (floor_le_pyround q)

lemma pyround_le (q : ℚ) (n : ℤ) (h : q ≤ (n : ℚ)) : pyround q ≤ n :=
  le_trans (pyround_le_ceil q) (Int.ceil_le.mpr h)

lemma pyround_eq_low (q : ℚ) (n : ℤ) (h1 : (n : ℚ) ≤ q) (h2 : q - n < 1/2) :
    pyround q = n := by
  have hf : ⌊q⌋ = n := by
    rw [Int.floor_eq_iff]
    exact ⟨h1, by linarith⟩
  unfold pyround
  rw [hf, if_pos h2]

lemma pyround_eq_high (q : ℚ) (n : ℤ) (h1 : (n : ℚ) - 1/2 < q) (h2 : q < n) :
    pyround q = n := by
  have hf : ⌊q⌋ = n - 1 := by
    rw [Int.floor_eq_iff]
    constructor
    · push_cast; linarith
    · push_cast; linarith
  unfold pyround
  rw [hf, if_neg (by push_cast; linarith), if_pos (by push_cast; linarith)]
  omega

lemma pyround_tie_even (n : ℤ) (q : ℚ) (hq : q = n + 1/2) (he : n % 2 = 0) :
    pyround q = n := by
  have hf : ⌊q⌋ = n := by
    rw [Int.floor_eq_iff]
    constructor
    · linarith
    · linarith
  unfold pyround
  rw [hf, if_neg (by rw [hq]; linarith),
     if_neg (by rw [hq]; linarith), if_pos he]

/-! ### Concrete evaluations of the HSL arithmetic -/

lemma hsl_0_123_255 : hslFromRGB 0 123 255 = .ok (211, 100, 50) := by
  unfold hslFromRGB hslTriple
  norm_num [max_def, min_def]
  exact ⟨pyround_eq_low _ 211 (by norm_num) (by norm_num),
         pyround_eq_low _ 100 (by norm_num) (by norm_num),
         pyround_eq_low _ 50 (by norm_num) (by norm_num)⟩

lemma hsl_255_0_1 : hslFromRGB 255 0 1 = .ok (360, 100, 50) := by
  unfold hslFromRGB hslTriple
  norm_num [max_def, min_def]
  exact ⟨pyround_eq_high _ 360 (by norm_num) (by norm_num),
         pyround_eq_low _ 100 (by norm_num) (by norm_num),
         pyround_eq_low _ 50 (by norm_num) (by norm_num)⟩

lemma hsl_255_255_m15 : hslFromRGB 255 255 (-15) = .ok (60, 112, 47) := by
  unfold hslFromRGB hslTriple
  norm_num [max_def, min_def]
  exact ⟨pyround_eq_low _ 60 (by norm_num) (by norm_num),
         pyround_tie_even 112 _ (by norm_num) (by norm_num),
         pyround_eq_low _ 47 (by norm_num) (by norm_num)⟩

lemma hsl_15_m15_0 : hslFromRGB 15 (-15) 0 = .error .zeroDivisionError := by
  unfold hslFromRGB hslTriple
  norm_num [max_def, min_def]

lemma hsl_255_0_0 : hslFromRGB 255 0 0 = .ok (0, 100, 50) := by
  unfold hslFromRGB hslTriple
  norm_num [max_def, min_def]
  exact ⟨pyround_eq_low _ 0 (by norm_num) (by norm_num),
         pyround_eq_low _ 100 (by norm_num) (by norm_num),
         pyround_eq_low _ 50 (by norm_num) (by norm_num)⟩

lemma hsl_255_255_255 : hslFromRGB 255 255 255 = .ok (0, 0, 100) := by
  unfold hslFromRGB hslTriple
  norm_num [max_def, min_def]
  exact pyround_eq_low _ 100 (by norm_num) (by norm_num)

lemma hsl_0_0_0 : hslFromRGB 0 0 0 = .ok (0, 0, 0) := by
  unfold hslFromRGB hslTriple
  norm_num [max_def, min_def]
  exact pyround_eq_low _ 0 (by norm_num) (by norm_num)

lemma hsl_128_128_128 : hslFromRGB 128 128 128 = .ok (0, 0, 50) := by
  unfold hslFromRGB hslTriple
  norm_num [max_def, min_def]
  exact pyround_eq_low _ 50 (by norm_num) (by norm_num)

/-! ### Reductions of `hex_to_hsl` through `parse3` -/

lemma hexToHsl_of_parse (s : String) (r g b : Int)
    (hp : parse3 (normalizeHex s.data) = .ok (r, g, b)) :
    hex_to_hsl s = hslFromRGB r g b := by
  rw [hex_to_hsl, hexToHslCore, hp]

lemma hexToHsl_of_parse_err (s : String) (e : PyErr)
    (hp : parse3 (normalizeHex s.data) = .error e) :
    hex_to_hsl s = .error e := by
  rw [hex_to_hsl, hexToHslCore, hp]

lemma hexToHsl_007bff : hex_to_hsl "#007bff" = .ok (211, 100, 50) := by
  rw [hexToHsl_of_parse _ 0 123 255 (by decide)]
  exact hsl_0_123_255

lemma hexToHsl_ff0001 : hex_to_hsl "#ff0001" = .ok (360, 100, 50) := by
  rw [hexToHsl_of_parse _ 255 0 1 (by decide)]
  exact hsl_255_0_1

lemma hexToHsl_ffffmf : hex_to_hsl "ffff-f" = .ok (60, 112, 47) := by
  rw [hexToHsl_of_parse _ 255 255 (-15) (by decide)]
  exact hsl_255_255_m15

lemma hexToHsl_0fmf00 : hex_to_hsl "0f-f00" = .error .zeroDivisionError := by
  rw [hexToHsl_of_parse _ 15 (-15) 0 (by decide)]
  exact hsl_15_m15_0

lemma hexToHsl_f00 : hex_to_hsl "#f00" = .ok (0, 100, 50) := by
  rw [hexToHsl_of_parse _ 255 0 0 (by decide)]
  exact hsl_255_0_0

lemma hexToHsl_ff0000 : hex_to_hsl "#ff0000" = .ok (0, 100, 50) := by
  rw [hexToHsl_of_parse _ 255 0 0 (by decide)]
  exact hsl_255_0_0

lemma hexToHsl_red : hex_to_hsl "red" = .ok (0, 100, 50) := by
  rw [hexToHsl_of_parse _ 255 0 0 (by decide)]
  exact hsl_255_0_0

lemma hexToHsl_white : hex_to_hsl "white" = .ok (0, 0, 100) := by
  rw [hexToHsl_of_parse _ 255 255 255 (by decide)]
  exact hsl_255_255_255

lemma hexToHsl_black : hex_to_hsl "black" = .ok (0, 0, 0) := by
  rw [hexToHsl_of_parse _ 0 0 0 (by decide)]
  exact hsl_0_0_0

lemma hexToHsl_808080 : hex_to_hsl "#808080" = .ok (0, 0, 50) := by
  rw [hexToHsl_of_parse _ 128 128 128 (by decide)]
  exact hsl_128_128_128

/-! ### Bounds for the HSL computation -/
lemma div_abs_le_one (x d : ℚ) (hd : 0 < d) (hlo : -d ≤ x) (hhi : x ≤ d) :
    -1 ≤ x / d ∧ x / d ≤ 1 :=
  ⟨by rw [le_div_iff₀ hd]; linarith, by rw [div_le_one hd]; linarith⟩

lemma hslTriple_ok_bounds (red green blue : ℚ)
    (hr0 : 0 ≤ red) (hr1 : red ≤ 1) (hg0 : 0 ≤ green) (hg1 : green ≤ 1)
    (hb0 : 0 ≤ blue) (hb1 : blue ≤ 1) :
    ∃ h s l, hslTriple red green blue = .ok (h, s, l) ∧
      0 ≤ h ∧ h ≤ 360 ∧ 0 ≤ s ∧ s ≤ 100 ∧ 0 ≤ l ∧ l ≤ 100 := by
  simp only [hslTriple]
  set maxV := max red (max green blue) with hmaxdef
  set minV := min red (min green blue) with hmindef
  have hrM : red ≤ maxV := le_max_left _ _
  have hgM : green ≤ maxV := le_trans (le_max_left _ _) (le_max_right _ _)
  have hbM : blue ≤ maxV := le_trans (le_max_right _ _) (le_max_right _ _)
  have hmr : minV ≤ red := min_le_left _ _
  have hmg : minV ≤ green := le_trans (min_le_right _ _) (min_le_left _ _)
  have hmb : minV ≤ blue := le_trans (min_le_right _ _) (min_le_right _ _)
  have hM1 : maxV ≤ 1 := max_le hr1 (max_le hg1 hb1)
  have hm0 : 0 ≤ minV := le_min hr0 (le_min hg0 hb0)
  have hM0 : 0 ≤ maxV := le_trans hr0 hrM
  have hmm : minV ≤ maxV := le_trans hmr hrM
  have hlight0 : 0 ≤ (maxV + minV) / 2 * 100 := by linarith
  have hlight100 : (maxV + minV) / 2 * 100 ≤ 100 := by linarith
  by_cases hd : maxV - minV = 0
  · rw [if_pos hd]
    exact ⟨0, 0, _, rfl, by norm_num, by norm_num, by norm_num, by norm_num,
           le_pyround 0 _ (by push_cast; linarith),
           pyround_le _ 100 (by push_cast; linarith)⟩
  · rw [if_neg hd]
    have hdpos : 0 < maxV - minV := lt_of_le_of_ne (by linarith) (Ne.symm hd)
    have hsat : ∀ den : ℚ, 0 < den → maxV - minV ≤ den →
        0 ≤ (maxV - minV) / den * 100 ∧ (maxV - minV) / den * 100 ≤ 100 := by
      intro den hden hle
      constructor
      · positivity
      · have h1 : (maxV - minV) / den ≤ 1 := by rw [div_le_one hden]; linarith
        linarith
    have hue_bounds : ∀ hue0 : ℚ, 0 ≤ hue0 → hue0 ≤ 6 →
        0 ≤ pyround (hue0 / 6 * 360) ∧ pyround (hue0 / 6 * 360) ≤ 360 :=
      fun hue0 hlo hhi =>
        ⟨le_pyround 0 _ (by push_cast; positivity),
         pyround_le _ 360 (by push_cast; linarith)⟩
    have hue0_ok : 0 ≤ (if maxV = red then
          (green - blue) / (maxV - minV) + if green < blue then 6 else 0
        else if maxV = green then (blue - red) / (maxV - minV) + 2
        else (red - green) / (maxV - minV) + 4) ∧
        (if maxV = red then
          (green - blue) / (maxV - minV) + if green < blue then 6 else 0
        else if maxV = green then (blue - red) / (maxV - minV) + 2
        else (red - green) / (maxV - minV) + 4) ≤ 6 := by
      by_cases h1 : maxV = red
      · rw [if_pos h1]
        by_cases h2 : green < blue
        · rw [if_pos h2]
          have hdiv : (green - blue) / (maxV - minV) ≤ 0 :=
            div_nonpos_iff.mpr (Or.inr ⟨by linarith, by linarith⟩)
          have hlo := (div_abs_le_one (green - blue) (maxV - minV) hdpos
            (by linarith) (by linarith)).1
          constructor <;> linarith
        · rw [if_neg h2]
          push_neg at h2
          have hnum0 : 0 ≤ green - blue := by linarith
          have hdiv0 : 0 ≤ (green - blue) / (maxV - minV) := by positivity
          have hhi := (div_abs_le_one (green - blue) (maxV - minV) hdpos
            (by linarith) (by linarith)).2
          constructor <;> linarith
      · rw [if_neg h1]
        by_cases h2 : maxV = green
        · rw [if_pos h2]
          have hb := div_abs_le_one (blue - red) (maxV - minV) hdpos
            (by linarith) (by linarith)
          constructor <;> [linarith [hb.1]; linarith [hb.2]]
        · rw [if_neg h2]
          have hb := div_abs_le_one (red - green) (maxV - minV) hdpos
            (by linarith) (by linarith)
          constructor <;> [linarith [hb.1]; linarith [hb.2]]
    by_cases hlight : (maxV + minV) / 2 < 1/2
    · rw [if_pos hlight]
      have hne : ¬ maxV + minV = 0 := by
        intro h0
        have : maxV = 0 := by linarith
        have : minV = 0 := by linarith
        apply hd
        linarith
      rw [if_neg hne]
      have hpos : 0 < maxV + minV := lt_of_le_of_ne (by linarith) (Ne.symm hne)
      have hs := hsat (maxV + minV) hpos (by linarith)
      have hh := hue_bounds _ hue0_ok.1 hue0_ok.2
      exact ⟨_, _, _, rfl, hh.1, hh.2,
             le_pyround 0 _ (by push_cast; linarith [hs.1]),
             pyround_le _ 100 (by push_cast; linarith [hs.2]),
             le_pyround 0 _ (by push_cast; linarith),
             pyround_le _ 100 (by push_cast; linarith)⟩
    · rw [if_neg hlight]
      have hne : ¬ 2 - maxV - minV = 0 := by
        intro h0
        have h1 : maxV = 1 := by linarith
        have h2 : minV = 1 := by linarith
        apply hd
        linarith
      rw [if_neg hne]
      have hpos : 0 < 2 - maxV - minV := by
        rcases lt_or_eq_of_le (by linarith : (0:ℚ) ≤ 2 - maxV - minV) with h | h
        · exact h
        · exact absurd h.symm hne
      have hs := hsat (2 - maxV - minV) hpos (by linarith)
      have hh := hue_bounds _ hue0_ok.1 hue0_ok.2
      exact ⟨_, _, _, rfl, hh.1, hh.2,
             le_pyround 0 _ (by push_cast; linarith [hs.1]),
             pyround_le _ 100 (by push_cast; linarith [hs.2]),
             le_pyround 0 _ (by push_cast; linarith),
             pyround_le _ 100 (by push_cast; linarith)⟩

/-! ### Character classes -/
lemma char_le_toNat {a b : Char} : a ≤ b ↔ a.toNat ≤ b.toNat := Iff.rfl

lemma hexDigit_toNat (c : Char) (h : isHexDigit c = true) :
    (48 ≤ c.toNat ∧ c.toNat ≤ 57) ∨ (97 ≤ c.toNat ∧ c.toNat ≤ 102) ∨
    (65 ≤ c.toNat ∧ c.toNat ≤ 70) := by
  simp only [isHexDigit, Bool.or_eq_true, Bool.and_eq_true, decide_eq_true_eq,
    char_le_toNat] at h
  tauto

lemma toNat_eq_of_eq {c d : Char} (h : c = d) : c.toNat = d.toNat :=
  congrArg Char.toNat h

lemma hexDigit_not_special (c : Char) (h : isHexDigit c = true) :
    isPySpace c = false ∧ c ≠ '-' ∧ c ≠ '+' ∧ c ≠ '#' ∧ c ≠ '\n' := by
  have hn := hexDigit_toNat c h
  refine ⟨?_, ?_, ?_, ?_, ?_⟩
  · simp only [isPySpace, Bool.or_eq_false_iff, decide_eq_false_iff_not]
    refine ⟨⟨⟨⟨⟨?_, ?_⟩, ?_⟩, ?_⟩, ?_⟩, ?_⟩ <;>
      (intro he; have := toNat_eq_of_eq he; simp at this; omega)
  · intro he; have := toNat_eq_of_eq he; simp at this; omega
  · intro he; have := toNat_eq_of_eq he; simp at this; omega
  · intro he; have := toNat_eq_of_eq he; simp at this; omega
  · intro he; have := toNat_eq_of_eq he; simp at this; omega

lemma hexVal_lt_16 (c : Char) (h : isHexDigit c = true) : hexVal c < 16 := by
  have hn := hexDigit_toNat c h
  unfold hexVal
  split_ifs with h1 h2 h3
  · simp [char_le_toNat] at h1
    omega
  · simp [char_le_toNat] at h2
    omega
  · simp [char_le_toNat] at h3
    omega
  · omega

/-! ### Python int parsing lemmas -/
lemma toNat_ofNat_small (m : Nat) (h1 : m < 55296) : (Char.ofNat m).toNat = m := by
  unfold Char.ofNat
  rw [dif_pos (Or.inl h1)]
  simp [Char.ofNatAux, Char.toNat, UInt32.toNat, BitVec.toNat_ofNatLt]

lemma pyLower_toNat (c d : Char) (h : pyLower c = d) :
    c.toNat = d.toNat ∨ (c.toNat + 32 = d.toNat ∧ 65 ≤ c.toNat ∧ c.toNat ≤ 90) := by
  unfold pyLower at h
  split_ifs at h with hc
  · right
    refine ⟨?_, hc.1, hc.2⟩
    rw [← h, toNat_ofNat_small]
    omega
  · left
    rw [h]

lemma not_hex_of_toNat (c : Char)
    (h : c.toNat < 48 ∨ (57 < c.toNat ∧ c.toNat < 65) ∨
         (70 < c.toNat ∧ c.toNat < 97) ∨ 102 < c.toNat) :
    isHexDigit c = false := by
  cases hx : isHexDigit c
  · rfl
  · exfalso
    have := hexDigit_toNat c hx
    omega

lemma not_space_of_toNat (c : Char)
    (h : c.toNat ≠ 32 ∧ c.toNat ≠ 9 ∧ c.toNat ≠ 10 ∧ c.toNat ≠ 13 ∧
         c.toNat ≠ 11 ∧ c.toNat ≠ 12) :
    isPySpace c = false := by
  cases hx : isPySpace c
  · rfl
  · exfalso
    simp only [isPySpace, Bool.or_eq_true, decide_eq_true_eq] at hx
    rcases hx with ((((hx | hx) | hx) | hx) | hx) | hx <;>
      (have h2 := toNat_eq_of_eq hx; simp at h2; omega)

/-- The first character of a lowered `hsl`/`rgb` match cannot begin a
successful `int(_, 16)` parse. -/
lemma funcHead_char_facts (c : Char) (h : pyLower c = 'h' ∨ pyLower c = 'r') :
    isHexDigit c = false ∧ isPySpace c = false ∧ c ≠ '-' ∧ c ≠ '+' ∧ c ≠ '#' := by
  have htn : c.toNat = 104 ∨ c.toNat = 114 ∨ c.toNat = 72 ∨ c.toNat = 82 := by
    rcases h with h | h <;> rcases pyLower_toNat c _ h with h2 | ⟨h2, h3, h4⟩ <;>
      simp at h2 <;> omega
  refine ⟨not_hex_of_toNat c (by omega), not_space_of_toNat c (by omega), ?_, ?_, ?_⟩ <;>
    (intro he; rw [he] at htn; simp at htn)

lemma stripWs_cons (c : Char) (r : List Char) (h : isPySpace c = false) :
    ∃ t, stripWs (c :: r) = c :: t := by
  unfold stripWs
  rw [List.dropWhile_cons, h]
  simp only [Bool.false_eq_true, if_false]
  rw [List.reverse_cons, List.dropWhile_append]
  by_cases hE : (r.reverse.dropWhile isPySpace).isEmpty
  · rw [if_pos hE, List.dropWhile_cons, h]
    exact ⟨[], by simp⟩
  · rw [if_neg hE]
    exact ⟨(r.reverse.dropWhile isPySpace).reverse, by simp⟩

lemma pyIntHex16_fail_head (c : Char) (r : List Char)
    (hhex : isHexDigit c = false) (hws : isPySpace c = false)
    (hm : c ≠ '-') (hp : c ≠ '+') :
    pyIntHex16 (c :: r) = .error .valueError := by
  obtain ⟨t, ht⟩ := stripWs_cons c r hws
  unfold pyIntHex16
  rw [ht]
  simp only [if_neg hm, if_neg hp]
  rw [if_neg]
  simp [List.all_cons, hhex]

lemma pyIntHex16_hex_pair (a b : Char)
    (ha : isHexDigit a = true) (hb : isHexDigit b = true) :
    pyIntHex16 [a, b] = .ok ((16 * hexVal a + hexVal b : Nat) : Int) := by
  have hsa := (hexDigit_not_special a ha).1
  have hsb := (hexDigit_not_special b hb).1
  have hst : stripWs [a, b] = [a, b] := by
    simp [stripWs, List.dropWhile_cons, hsa, hsb]
  simp only [pyIntHex16, hst]
  rw [if_neg (hexDigit_not_special a ha).2.1, if_neg (hexDigit_not_special a ha).2.2.1,
    if_pos (by simp [List.all_cons, ha, hb])]
  simp [hexDigitsVal]

lemma pyIntHex16_hex_nl (a : Char) (ha : isHexDigit a = true) :
    pyIntHex16 [a, '\n'] = .ok ((hexVal a : Nat) : Int) := by
  have hsa := (hexDigit_not_special a ha).1
  have hst : stripWs [a, '\n'] = [a] := by
    unfold stripWs
    rw [List.dropWhile_cons, hsa]
    simp only [Bool.false_eq_true, if_false, List.reverse_cons, List.reverse_nil,
      List.nil_append, List.cons_append]
    rw [List.dropWhile_cons, (by decide : isPySpace '\n' = true)]
    simp only [if_true]
    rw [List.dropWhile_cons, hsa]
    simp
  simp only [pyIntHex16, hst]
  rw [if_neg (hexDigit_not_special a ha).2.1, if_neg (hexDigit_not_special a ha).2.2.1,
    if_pos (by simp [List.all_cons, ha])]
  simp [hexDigitsVal]

lemma hex_pair_bounds (a b : Char)
    (ha : isHexDigit a = true) (hb : isHexDigit b = true) :
    (0 : Int) ≤ ((16 * hexVal a + hexVal b : Nat) : Int) ∧
    ((16 * hexVal a + hexVal b : Nat) : Int) ≤ 255 := by
  have h1 := hexVal_lt_16 a ha
  have h2 := hexVal_lt_16 b hb
  constructor
  · positivity
  · push_cast
    omega

/-- A 6-character all-hex string parses into three channels in `[0, 255]`. -/
lemma parse3_hex6 (l : List Char) (h6 : l.length = 6) (hall : l.all isHexDigit = true) :
    ∃ r g b : Int, parse3 l = .ok (r, g, b) ∧
      0 ≤ r ∧ r ≤ 255 ∧ 0 ≤ g ∧ g ≤ 255 ∧ 0 ≤ b ∧ b ≤ 255 := by
  match l, h6 with
  | [c0, c1, c2, c3, c4, c5], _ =>
    simp only [List.all_cons, List.all_nil, Bool.and_eq_true, Bool.and_true] at hall
    obtain ⟨h0, h1, h2, h3, h4, h5⟩ := hall
    refine ⟨((16 * hexVal c0 + hexVal c1 : Nat) : Int),
            ((16 * hexVal c2 + hexVal c3 : Nat) : Int),
            ((16 * hexVal c4 + hexVal c5 : Nat) : Int), ?_, ?_⟩
    · unfold parse3
      rw [if_pos (by rfl)]
      rw [show ([c0,c1,c2,c3,c4,c5].take 2) = [c0, c1] from rfl,
          show (([c0,c1,c2,c3,c4,c5].drop 2).take 2) = [c2, c3] from rfl,
          show (([c0,c1,c2,c3,c4,c5].drop 4).take 2) = [c4, c5] from rfl,
          pyIntHex16_hex_pair c0 c1 h0 h1, pyIntHex16_hex_pair c2 c3 h2 h3,
          pyIntHex16_hex_pair c4 c5 h4 h5]
    · exact ⟨(hex_pair_bounds c0 c1 h0 h1).1, (hex_pair_bounds c0 c1 h0 h1).2,
             (hex_pair_bounds c2 c3 h2 h3).1, (hex_pair_bounds c2 c3 h2 h3).2,
             (hex_pair_bounds c4 c5 h4 h5).1, (hex_pair_bounds c4 c5 h4 h5).2⟩

/-- Five hex characters followed by the newline the regex `$` tolerated:
the last parse strips the newline and reads a single digit. -/
lemma parse3_hex5_nl (c0 c1 c2 c3 c4 : Char)
    (h0 : isHexDigit c0 = true) (h1 : isHexDigit c1 = true)
    (h2 : isHexDigit c2 = true) (h3 : isHexDigit c3 = true)
    (h4 : isHexDigit c4 = true) :
    ∃ r g b : Int, parse3 [c0, c1, c2, c3, c4, '\n'] = .ok (r, g, b) ∧
      0 ≤ r ∧ r ≤ 255 ∧ 0 ≤ g ∧ g ≤ 255 ∧ 0 ≤ b ∧ b ≤ 255 := by
  refine ⟨((16 * hexVal c0 + hexVal c1 : Nat) : Int),
          ((16 * hexVal c2 + hexVal c3 : Nat) : Int),
          ((hexVal c4 : Nat) : Int), ?_, ?_⟩
  · unfold parse3
    rw [if_pos (by rfl)]
    rw [show ([c0,c1,c2,c3,c4,'\n'].take 2) = [c0, c1] from rfl,
        show (([c0,c1,c2,c3,c4,'\n'].drop 2).take 2) = [c2, c3] from rfl,
        show (([c0,c1,c2,c3,c4,'\n'].drop 4).take 2) = [c4, '\n'] from rfl,
        pyIntHex16_hex_pair c0 c1 h0 h1, pyIntHex16_hex_pair c2 c3 h2 h3,
        pyIntHex16_hex_nl c4 h4]
  · have hv := hexVal_lt_16 c4 h4
    refine ⟨(hex_pair_bounds c0 c1 h0 h1).1, (hex_pair_bounds c0 c1 h0 h1).2,
           (hex_pair_bounds c2 c3 h2 h3).1, (hex_pair_bounds c2 c3 h2 h3).2,
           by positivity, by omega⟩

/-! ### Lookup and prefix helpers -/
lemma lookupL_eq_none (k : List Char) (l : List (List Char × List Char))
    (h : ∀ p ∈ l, k ≠ p.1) : lookupL k l = none := by
  induction l with
  | nil => rfl
  | cons p rest ih =>
    obtain ⟨k', v'⟩ := p
    rw [lookupL, if_neg (h (k', v') (List.mem_cons_self _ _))]
    exact ih fun q hq => h q (List.mem_cons_of_mem _ hq)

lemma lookupL_mem (k : List Char) (l : List (List Char × List Char))
    (hk : k ∈ l.map Prod.fst) :
    ∃ v, lookupL k l = some v ∧ v ∈ l.map Prod.snd := by
  induction l with
  | nil => simp at hk
  | cons p rest ih =>
    obtain ⟨k', v'⟩ := p
    by_cases he : k = k'
    · exact ⟨v', by rw [lookupL, if_pos he], by simp⟩
    · simp only [List.map_cons, List.mem_cons] at hk
      rcases hk with hk | hk
      · exact absurd hk he
      · obtain ⟨v, hv, hmem⟩ := ih hk
        exact ⟨v, by rw [lookupL, if_neg he]; exact hv, by simp [hmem]⟩

lemma isPrefixOf_exists (l₁ l₂ : List Char) (h : l₁.isPrefixOf l₂ = true) :
    ∃ t, l₂ = l₁ ++ t := by
  induction l₁ generalizing l₂ with
  | nil => exact ⟨l₂, rfl⟩
  | cons a l ih =>
    cases l₂ with
    | nil => simp [List.isPrefixOf] at h
    | cons b r =>
      simp only [List.isPrefixOf, Bool.and_eq_true, beq_iff_eq] at h
      obtain ⟨t, ht⟩ := ih r h.2
      exact ⟨t, by rw [h.1, ht]; rfl⟩

lemma take2_head (a b : Char) (t : List Char) : (a :: b :: t).take 2 = [a, b] := rfl

/-- No named-color key starts with `#`. -/
lemma lookupL_hash_none (t : List Char) :
    lookupL ('#' :: t) namedColors = none := by
  refine lookupL_eq_none _ _ fun p hp => ?_
  fin_cases hp <;>
    (intro he
     have h2 := congrArg (List.take 1) he
     rw [show ('#' :: t).take 1 = ['#'] from rfl] at h2
     exact absurd h2 (by decide))

/-- No named-color key starts with `hs` or `rg`. -/
lemma lookupL_func_none (a b : Char) (t : List Char)
    (hab : (a = 'h' ∧ b = 's') ∨ (a = 'r' ∧ b = 'g')) :
    lookupL (a :: b :: t) namedColors = none := by
  refine lookupL_eq_none _ _ fun p hp => ?_
  fin_cases hp <;>
    (intro he
     have h2 := congrArg (List.take 2) he
     rw [take2_head] at h2
     rcases hab with ⟨ha, hb⟩ | ⟨ha, hb⟩ <;> subst ha <;> subst hb <;>
       exact absurd h2 (by decide))

lemma doubled_length (l : List Char) :
    ((l.map fun c => [c, c]).flatten).length = 2 * l.length := by
  induction l with
  | nil => rfl
  | cons a t ih => simp only [List.map_cons, List.flatten_cons, List.length_append,
      List.length_cons, ih, List.length_nil]; omega

lemma doubled_all (l : List Char) (p : Char → Bool) (h : l.all p = true) :
    ((l.map fun c => [c, c]).flatten).all p = true := by
  induction l with
  | nil => rfl
  | cons a t ih =>
    simp only [List.all_cons, Bool.and_eq_true] at h
    simp only [List.map_cons, List.flatten_cons, List.all_append, List.all_cons,
      List.all_nil, Bool.and_eq_true]
    exact ⟨⟨h.1, h.1, trivial⟩, ih h.2⟩

lemma length_five (l : List Char) (h : l.length = 5) :
    ∃ a b c d e, l = [a, b, c, d, e] := by
  match l, h with
  | [a, b, c, d, e], _ => exact ⟨a, b, c, d, e, rfl⟩

lemma pyLower_hash : pyLower '#' = '#' := by decide

lemma lowerL_cons (c : Char) (t : List Char) :
    lowerL (c :: t) = pyLower c :: lowerL t := rfl

/-- For a `#`-headed input whose next character is a hex digit, normalization
is exactly `lstrip` + conditional doubling of the tail. -/
lemma normalizeHex_hash (r0 : Char) (t : List Char) (h0 : isHexDigit r0 = true) :
    normalizeHex ('#' :: r0 :: t) =
      if (r0 :: t).length = 3 then ((r0 :: t).map fun c => [c, c]).flatten
      else r0 :: t := by
  have hne : r0 ≠ '#' := (hexDigit_not_special r0 h0).2.2.2.1
  unfold normalizeHex substNamed
  rw [lowerL_cons, pyLower_hash, lookupL_hash_none]
  unfold stripAndExpand
  simp only [List.dropWhile_cons, decide_True, decide_eq_true_eq, if_true,
    decide_eq_false hne, Bool.false_eq_true, if_false, if_true]

lemma parse3_len_ne (n : List Char) (h : n.length ≠ 6) :
    parse3 n = .error .valueError := by
  unfold parse3
  rw [if_neg h]

/-- Outcome of `hex_to_hsl` parsing on any input accepted by the hex regex:
either three channels in `[0, 255]`, or a clean `ValueError` (for lengths
4 and 5, which the regex admits but the length check rejects). -/
lemma hexRegex_parse (cs : List Char) (h : matchesHexRegex cs = true) :
    (∃ r g b : Int, parse3 (normalizeHex cs) = .ok (r, g, b) ∧
      0 ≤ r ∧ r ≤ 255 ∧ 0 ≤ g ∧ g ≤ 255 ∧ 0 ≤ b ∧ b ≤ 255) ∨
    parse3 (normalizeHex cs) = .error .valueError := by
  unfold matchesHexRegex at h
  split at h
  case h_2 => exact absurd h (by simp)
  case h_1 cs' rest =>
    rw [Bool.or_eq_true] at h
    rcases h with h | h
    · -- plain body: 3..6 hex digits
      simp only [hexBody, Bool.and_eq_true, decide_eq_true_eq] at h
      obtain ⟨⟨h3, h6⟩, hall⟩ := h
      obtain ⟨r0, t, hrt⟩ : ∃ r0 t, rest = r0 :: t := by
        cases rest with
        | nil => simp at h3
        | cons a b => exact ⟨a, b, rfl⟩
      subst hrt
      have h0 : isHexDigit r0 = true := by
        rw [List.all_cons, Bool.and_eq_true] at hall
        exact hall.1
      rw [normalizeHex_hash r0 t h0]
      by_cases hl3 : (r0 :: t).length = 3
      · rw [if_pos hl3]
        left
        exact parse3_hex6 _ (by rw [doubled_length, hl3]) (doubled_all _ _ hall)
      · rw [if_neg hl3]
        by_cases hl6 : (r0 :: t).length = 6
        · left
          exact parse3_hex6 _ hl6 hall
        · right
          exact parse3_len_ne _ hl6
    · -- `$` matched just before a trailing newline
      split at h
      case h_2 => exact absurd h (by simp)
      case h_1 c' hlast =>
        rw [Bool.and_eq_true, decide_eq_true_eq] at h
        obtain ⟨hc', hbody⟩ := h
        subst hc'
        simp only [hexBody, Bool.and_eq_true, decide_eq_true_eq] at hbody
        obtain ⟨⟨h3, h6⟩, hall⟩ := hbody
        have hne : rest ≠ [] := by
          intro hn
          rw [hn] at hlast
          simp at hlast
        have hrest : rest = rest.dropLast ++ ['\n'] := by
          rw [List.getLast?_eq_getLast _ hne, Option.some_inj] at hlast
          conv_lhs => rw [← List.dropLast_concat_getLast hne]
          rw [hlast]
        by_cases hl5 : rest.dropLast.length = 5
        · left
          obtain ⟨a, b, c, d, e, habcde⟩ := length_five _ hl5
          have hrest6 : rest = [a, b, c, d, e, '\n'] := by
            rw [hrest, habcde]
            rfl
          rw [habcde] at hall
          simp only [List.all_cons, List.all_nil, Bool.and_eq_true,
            Bool.and_true] at hall
          rw [hrest6,
            normalizeHex_hash a [b, c, d, e, '\n'] hall.1,
            if_neg (by simp)]
          exact parse3_hex5_nl a b c d e hall.1 hall.2.1 hall.2.2.1
            hall.2.2.2.1 hall.2.2.2.2
        · right
          obtain ⟨b0, bt, hbt⟩ : ∃ b0 bt, rest.dropLast = b0 :: bt := by
            cases hb : rest.dropLast with
            | nil =>
              rw [hb] at h3
              simp at h3
            | cons x y => exact ⟨x, y, rfl⟩
          have h0 : isHexDigit b0 = true := by
            rw [hbt, List.all_cons, Bool.and_eq_true] at hall
            exact hall.1
          have hshape : rest = b0 :: (bt ++ ['\n']) := by
            rw [hrest, hbt]
            rfl
          have hlen2 : (b0 :: (bt ++ ['\n'])).length = rest.dropLast.length + 1 := by
            rw [hbt]
            simp
          rw [hshape, normalizeHex_hash b0 _ h0, if_neg (by omega)]
          exact parse3_len_ne _ (by omega)

/-- Every named-color substitution value normalizes to 6 hex digits. -/
lemma named_values_good :
    ∀ v ∈ namedColors.map Prod.snd,
      (stripAndExpand v).length = 6 ∧ (stripAndExpand v).all isHexDigit = true := by
  decide

lemma namedBranch_parse (cs : List Char)
    (h : namedColorNames.contains (lowerL cs) = true) :
    ∃ r g b : Int, parse3 (normalizeHex cs) = .ok (r, g, b) ∧
      0 ≤ r ∧ r ≤ 255 ∧ 0 ≤ g ∧ g ≤ 255 ∧ 0 ≤ b ∧ b ≤ 255 := by
  have hmem : lowerL cs ∈ namedColors.map Prod.fst := by
    rw [← List.elem_iff]
    exact h
  obtain ⟨v, hv, hvmem⟩ := lookupL_mem _ _ hmem
  have hgood := named_values_good v hvmem
  have hnorm : normalizeHex cs = stripAndExpand v := by
    unfold normalizeHex substNamed
    rw [hv]
  rw [hnorm]
  exact parse3_hex6 _ hgood.1 hgood.2

lemma parenAfterWs_ne_nil (l : List Char) (h : parenAfterWs l = true) : l ≠ [] := by
  intro hn
  rw [hn] at h
  simp [parenAfterWs] at h

/-- Inputs matching the `hsl(`/`rgb(` regex family always fail the base-16
parse (their first two characters are letters), after passing the length
test only when the raw length is 6. -/
lemma funcCore (c0 c1 : Char) (u : List Char) (a b : Char) (t : List Char)
    (h0 : pyLower c0 = a) (h1 : pyLower c1 = b) (ht : lowerL u = t)
    (hab : (a = 'h' ∧ b = 's') ∨ (a = 'r' ∧ b = 'g'))
    (hlen : u.length ≠ 1) :
    parse3 (normalizeHex (c0 :: c1 :: u)) = .error .valueError := by
  have hf := funcHead_char_facts c0 (by
    rcases hab with ⟨ha, _⟩ | ⟨ha, _⟩ <;> rw [h0, ha] <;> simp)
  have hsub : substNamed (c0 :: c1 :: u) = c0 :: c1 :: u := by
    unfold substNamed
    rw [lowerL_cons, lowerL_cons, h0, h1, ht, lookupL_func_none a b t hab]
  unfold normalizeHex
  rw [hsub]
  unfold stripAndExpand
  simp only [List.dropWhile_cons, decide_eq_false hf.2.2.2.2, Bool.false_eq_true,
    if_false]
  rw [if_neg (by simp [hlen])]
  by_cases h6 : (c0 :: c1 :: u).length = 6
  · unfold parse3
    rw [if_pos h6, take2_head,
      pyIntHex16_fail_head c0 [c1] hf.1 hf.2.1 hf.2.2.1 hf.2.2.2.1]
  · exact parse3_len_ne _ h6

lemma funcBranch_parse (cs : List Char)
    (h : matchesFuncRegex (lowerL cs) = true) :
    parse3 (normalizeHex cs) = .error .valueError := by
  have hdecomp : ∃ a b t, lowerL cs = a :: b :: t ∧
      ((a = 'h' ∧ b = 's') ∨ (a = 'r' ∧ b = 'g')) ∧
      4 ≤ (lowerL cs).length := by
    unfold matchesFuncRegex at h
    simp only [Bool.or_eq_true, Bool.and_eq_true] at h
    rcases h with ((⟨hp, hq⟩ | ⟨hp, hq⟩) | ⟨hp, hq⟩) | ⟨hp, hq⟩ <;>
      obtain ⟨t, ht⟩ := isPrefixOf_exists _ _ hp
    · refine ⟨'h', 's', 'l' :: t, by rw [ht]; rfl, Or.inl ⟨rfl, rfl⟩, ?_⟩
      have hnil : t ≠ [] := by
        refine parenAfterWs_ne_nil _ ?_
        rw [ht] at hq
        simpa using hq
      rw [ht]
      cases t with
      | nil => exact absurd rfl hnil
      | cons x xs => simp
    · refine ⟨'r', 'g', 'b' :: t, by rw [ht]; rfl, Or.inr ⟨rfl, rfl⟩, ?_⟩
      have hnil : t ≠ [] := by
        refine parenAfterWs_ne_nil _ ?_
        rw [ht] at hq
        simpa using hq
      rw [ht]
      cases t with
      | nil => exact absurd rfl hnil
      | cons x xs => simp
    · exact ⟨'h', 's', 'l' :: 'a' :: t, by rw [ht]; rfl, Or.inl ⟨rfl, rfl⟩,
        by rw [ht]; simp⟩
    · exact ⟨'r', 'g', 'b' :: 'a' :: t, by rw [ht]; rfl, Or.inr ⟨rfl, rfl⟩,
        by rw [ht]; simp⟩
  obtain ⟨a, b, t, hmap, hab, hlen4⟩ := hdecomp
  obtain ⟨c0, c1, u, hcs⟩ : ∃ c0 c1 u, cs = c0 :: c1 :: u := by
    cases cs with
    | nil => simp [lowerL] at hmap
    | cons x xs =>
      cases xs with
      | nil =>
        rw [show lowerL [x] = [pyLower x] from rfl] at hmap
        simp at hmap
      | cons y ys => exact ⟨x, y, ys, rfl⟩
  subst hcs
  rw [lowerL_cons, lowerL_cons] at hmap
  injection hmap with h0 hmap'
  injection hmap' with h1 ht
  refine funcCore c0 c1 u a b t h0 h1 ht hab ?_
  have : (lowerL (c0 :: c1 :: u)).length = u.length + 2 := by
    simp [lowerL]
  omega

/-- Any value accepted by `is_color_value` either parses into three channels
in `[0, 255]` or fails cleanly with `ValueError` — never any other way. -/
lemma colorlike_parse (cs : List Char) (h : isColorValueCore cs = true) :
    (∃ r g b : Int, parse3 (normalizeHex cs) = .ok (r, g, b) ∧
      0 ≤ r ∧ r ≤ 255 ∧ 0 ≤ g ∧ g ≤ 255 ∧ 0 ≤ b ∧ b ≤ 255) ∨
    parse3 (normalizeHex cs) = .error .valueError := by
  unfold isColorValueCore at h
  simp only [Bool.or_eq_true] at h
  rcases h with (h | h) | h
  · exact hexRegex_parse cs h
  · exact Or.inl (namedBranch_parse cs h)
  · exact Or.inr (funcBranch_parse cs h)

lemma hslFromRGB_ok_bounds (r g b : Int)
    (hr0 : 0 ≤ r) (hr1 : r ≤ 255) (hg0 : 0 ≤ g) (hg1 : g ≤ 255)
    (hb0 : 0 ≤ b) (hb1 : b ≤ 255) :
    ∃ hh ss ll, hslFromRGB r g b = .ok (hh, ss, ll) ∧
      0 ≤ hh ∧ hh ≤ 360 ∧ 0 ≤ ss ∧ ss ≤ 100 ∧ 0 ≤ ll ∧ ll ≤ 100 := by
  unfold hslFromRGB
  refine hslTriple_ok_bounds _ _ _ ?_ ?_ ?_ ?_ ?_ ?_ <;>
    [skip; skip; skip; skip; skip; skip]
  · positivity
  · rw [div_le_one (by norm_num)]
    exact_mod_cast hr1
  · positivity
  · rw [div_le_one (by norm_num)]
    exact_mod_cast hg1
  · positivity
  · rw [div_le_one (by norm_num)]
    exact_mod_cast hb1

lemma colorlike_hexToHsl (cs : List Char) (h : isColorValueCore cs = true) :
    (∃ hh ss ll, hexToHslCore cs = .ok (hh, ss, ll) ∧
      0 ≤ hh ∧ hh ≤ 360 ∧ 0 ≤ ss ∧ ss ≤ 100 ∧ 0 ≤ ll ∧ ll ≤ 100) ∨
    hexToHslCore cs = .error .valueError := by
  rcases colorlike_parse cs h with ⟨r, g, b, hp, h1, h2, h3, h4, h5, h6⟩ | hp
  · left
    obtain ⟨hh, ss, ll, hok, hbnd⟩ := hslFromRGB_ok_bounds r g b h1 h2 h3 h4 h5 h6
    refine ⟨hh, ss, ll, ?_, hbnd⟩
    rw [hexToHslCore, hp]
    exact hok
  · right
    rw [hexToHslCore, hp]

/-! ### Entry-level behaviour of `convert` -/

lemma convertEntry_color (n v : String) (hh ss ll : Int)
    (hc : is_color_value v = true) (hok : hex_to_hsl v = .ok (hh, ss, ll)) :
    convertEntry n v = .ok
      ["  " ++ cssVarFor n ++ "-h: " ++ intToStr hh ++ "deg;",
       "  " ++ cssVarFor n ++ "-s: " ++ intToStr ss ++ "%;",
       "  " ++ cssVarFor n ++ "-l: " ++ intToStr ll ++ "%;"] := by
  unfold convertEntry
  rw [if_pos hc, hok]

lemma convertEntry_plain (n v : String)
    (hc : is_color_value v = false ∨ hex_to_hsl v = .error .valueError) :
    convertEntry n v = .ok ["  " ++ cssVarFor n ++ ": " ++ v ++ ";"] := by
  unfold convertEntry
  by_cases h2 : is_color_value v = true
  · rw [if_pos h2]
    rcases hc with hc | hc
    · rw [h2] at hc
      exact absurd hc (by simp)
    · rw [hc]
  · rw [if_neg h2]

/-- Every entry produces declarations — one line or three — and never an
uncaught exception. -/
lemma convertEntry_ok (n v : String) :
    ∃ ds, convertEntry n v = .ok ds ∧ (ds.length = 3 ∨ ds.length = 1) := by
  by_cases hc : is_color_value v = true
  · rcases colorlike_hexToHsl v.data hc with ⟨hh, ss, ll, hok, _⟩ | herr
    · exact ⟨_, convertEntry_color n v hh ss ll hc (by rw [hex_to_hsl]; exact hok),
        Or.inl rfl⟩
    · exact ⟨_, convertEntry_plain n v (Or.inr (by rw [hex_to_hsl]; exact herr)),
        Or.inr rfl⟩
  · exact ⟨_, convertEntry_plain n v (Or.inl (by simpa using hc)), Or.inr rfl⟩

lemma convertDecls_ok (l : List (String × String)) :
    ∃ ds, convertDecls l = .ok ds := by
  induction l with
  | nil => exact ⟨[], rfl⟩
  | cons p rest ih =>
    obtain ⟨n, v⟩ := p
    obtain ⟨d, hd, _⟩ := convertEntry_ok n v
    obtain ⟨ds, hds⟩ := ih
    exact ⟨d ++ ds, by rw [convertDecls, hd, hds]⟩

/-- `convert` never raises: every input mapping yields an output string. -/
lemma convert_ok (l : List (String × String)) :
    ∃ s, convert_sass_variables_to_css l = .ok s := by
  unfold convert_sass_variables_to_css
  by_cases he : l.isEmpty
  · rw [if_pos he]
    exact ⟨"", rfl⟩
  · rw [if_neg he]
    obtain ⟨ds, hds⟩ := convertDecls_ok l
    rw [hds]
    exact ⟨_, rfl⟩

/-! ### Error-mode and special-case lemmas -/
/-- The RGB→HSL arithmetic returns a triple or divides by zero. -/
lemma hslTriple_cases (red green blue : ℚ) :
    (∃ t, hslTriple red green blue = .ok t) ∨
      hslTriple red green blue = .error .zeroDivisionError := by
  simp only [hslTriple]
  split_ifs <;> first
    | (left; exact ⟨_, rfl⟩)
    | (right; rfl)

/-- The RGB→HSL arithmetic itself never raises `ValueError`. -/
lemma hslFromRGB_ne_VE (r g b : Int) :
    hslFromRGB r g b ≠ .error .valueError := by
  unfold hslFromRGB
  rcases hslTriple_cases ((r : ℚ) / 255) ((g : ℚ) / 255) ((b : ℚ) / 255) with
    ⟨t, ht⟩ | ht <;> rw [ht] <;> simp

/-- `hex_to_hsl` reports `ValueError` exactly when the normalize-and-parse
phase does; the arithmetic phase contributes only `ZeroDivisionError`. -/
lemma hexToHsl_VE_iff (s : String) :
    hex_to_hsl s = .error .valueError ↔
      parse3 (normalizeHex s.data) = .error .valueError := by
  rw [hex_to_hsl, hexToHslCore]
  cases hp : parse3 (normalizeHex s.data) with
  | ok t =>
    obtain ⟨r, g, b⟩ := t
    simp only []
    constructor
    · intro hcon
      exact absurd hcon (hslFromRGB_ne_VE r g b)
    · intro hcon
      exact absurd hcon (by simp)
  | error e =>
    simp

/-- Achromatic case: equal parsed channels give hue 0 and saturation 0. -/
lemma hexToHsl_achromatic (s : String) (r : Int)
    (hp : parse3 (normalizeHex s.data) = .ok (r, r, r)) :
    ∃ l, hex_to_hsl s = .ok (0, 0, l) := by
  rw [hexToHsl_of_parse s r r r hp]
  unfold hslFromRGB hslTriple
  simp only [max_self, min_self, sub_self, if_pos]
  exact ⟨_, rfl⟩

lemma dropWhile_hash_replicate (n : Nat) (cs : List Char) :
    List.dropWhile (fun c => decide (c = '#')) (List.replicate n '#' ++ cs) =
      List.dropWhile (fun c => decide (c = '#')) cs := by
  induction n with
  | zero => simp
  | succ m ih => simp [List.replicate_succ, List.dropWhile_cons, ih]

/-- Stripping leading `#` characters: any positive number of them leads to
the same normalized string as a single one. -/
lemma normalizeHex_replicate (n : Nat) (hn : 1 ≤ n) (cs : List Char)
    (hne : cs ≠ []) (hhex : cs.all isHexDigit = true) :
    normalizeHex (List.replicate n '#' ++ cs) = normalizeHex ('#' :: cs) := by
  obtain ⟨c0, t, hct⟩ : ∃ c0 t, cs = c0 :: t := by
    cases cs with
    | nil => exact absurd rfl hne
    | cons a b => exact ⟨a, b, rfl⟩
  have h0 : isHexDigit c0 = true := by
    rw [hct, List.all_cons, Bool.and_eq_true] at hhex
    exact hhex.1
  have hsub1 : substNamed (List.replicate n '#' ++ cs) =
      List.replicate n '#' ++ cs := by
    unfold substNamed
    have : lowerL (List.replicate n '#' ++ cs) =
        List.replicate n '#' ++ lowerL cs := by
      simp [lowerL, List.map_replicate, pyLower_hash]
    rw [this]
    obtain ⟨m, hm⟩ : ∃ m, n = m + 1 := ⟨n - 1, by omega⟩
    rw [hm, List.replicate_succ, List.cons_append, lookupL_hash_none]
  have hsub2 : substNamed ('#' :: cs) = '#' :: cs := by
    unfold substNamed
    rw [show lowerL ('#' :: cs) = '#' :: lowerL cs from by
      rw [lowerL_cons, pyLower_hash], lookupL_hash_none]
  unfold normalizeHex
  rw [hsub1, hsub2]
  unfold stripAndExpand
  rw [dropWhile_hash_replicate]
  rw [show ('#' :: cs).dropWhile (fun c => decide (c = '#')) =
      cs.dropWhile (fun c => decide (c = '#')) from by
    simp [List.dropWhile_cons]]

/-- The three-line declarations of `convert` for the reference color. -/
lemma convertDecls_007bff :
    convertDecls [("primary", "#007bff")] =
      .ok ["  --bulma-primary-h: 211deg;", "  --bulma-primary-s: 100%;",
           "  --bulma-primary-l: 50%;"] := by
  rw [convertDecls,
    convertEntry_color "primary" "#007bff" 211 100 50 (by decide) hexToHsl_007bff]
  decide

lemma convert_007bff :
    convert_sass_variables_to_css [("primary", "#007bff")] =
      .ok ":root \x7b\n  --bulma-primary-h: 211deg;\n  --bulma-primary-s: 100%;\n  --bulma-primary-l: 50%;\n\x7d\n" := by
  unfold convert_sass_variables_to_css
  rw [if_neg (by simp), convertDecls_007bff]
  decide

/-! ### The classifier, as claimed and as implemented -/








lemma isPrefixOf_append_self (l t : List Char) : l.isPrefixOf (l ++ t) = true := by
  induction l with
  | nil => simp [List.isPrefixOf]
  | cons a r ih => simp [List.isPrefixOf, ih]

lemma dropWhile_all_append (p : Char → Bool) (l₁ l₂ : List Char)
    (h : ∀ c ∈ l₁, p c = true) :
    (l₁ ++ l₂).dropWhile p = l₂.dropWhile p := by
  induction l₁ with
  | nil => rfl
  | cons a r ih =>
    rw [List.cons_append, List.dropWhile_cons, h a (by simp)]
    exact ih fun c hc => h c (by simp [hc])

lemma matchesHexRegex_cons (rest : List Char) :
    matchesHexRegex ('#' :: rest) =
      (hexBody rest ||
        (match rest.getLast? with
         | some c => decide (c = '\n') && hexBody rest.dropLast
         | none => false)) := rfl

lemma matchesHexRegex_iff (s : String) :
    matchesHexRegex s.data = true ↔ HexPatternSpec s := by
  constructor
  · intro h
    unfold matchesHexRegex at h
    split at h
    case h_2 => exact absurd h (by simp)
    case h_1 cs' rest heq =>
      rw [Bool.or_eq_true] at h
      rcases h with h | h
      · simp only [hexBody, Bool.and_eq_true, decide_eq_true_eq] at h
        exact ⟨rest, [], by rw [heq]; simp, h.1.1, h.1.2,
          List.all_eq_true.mp h.2, Or.inl rfl⟩
      · split at h
        case h_2 => exact absurd h (by simp)
        case h_1 c' hlast =>
          rw [Bool.and_eq_true, decide_eq_true_eq] at h
          obtain ⟨hc', hbody⟩ := h
          subst hc'
          simp only [hexBody, Bool.and_eq_true, decide_eq_true_eq] at hbody
          have hne : rest ≠ [] := by
            intro hn
            rw [hn] at hlast
            simp at hlast
          have hrest : rest = rest.dropLast ++ ['\n'] := by
            rw [List.getLast?_eq_getLast _ hne, Option.some_inj] at hlast
            conv_lhs => rw [← List.dropLast_concat_getLast hne]
            rw [hlast]
          exact ⟨rest.dropLast, ['\n'], by rw [heq, ← hrest], hbody.1.1, hbody.1.2,
            List.all_eq_true.mp hbody.2, Or.inr rfl⟩
  · rintro ⟨ds, opt, hdata, h3, h6, hall, hopt⟩
    have hbody : hexBody ds = true := by
      simp only [hexBody, Bool.and_eq_true, decide_eq_true_eq]
      exact ⟨⟨h3, h6⟩, List.all_eq_true.mpr hall⟩
    rw [hdata]
    rcases hopt with hopt | hopt <;> subst hopt
    · rw [List.append_nil, matchesHexRegex_cons, hbody]
      rfl
    · rw [matchesHexRegex_cons]
      have h1 : (ds ++ ['\n']).getLast? = some '\n' := by simp
      have h2 : (ds ++ ['\n']).dropLast = ds := List.dropLast_concat
      rw [h1, h2, hbody]
      simp

lemma parenAfterWs_iff (l : List Char) :
    parenAfterWs l = true ↔
      ∃ ws rest, l = ws ++ '(' :: rest ∧ ∀ c ∈ ws, isPySpace c = true := by
  constructor
  · intro h
    unfold parenAfterWs at h
    split at h
    case h_2 => exact absurd h (by simp)
    case h_1 xs heq =>
      refine ⟨l.takeWhile isPySpace, xs, ?_, fun c hc => List.mem_takeWhile_imp hc⟩
      have hsplit : l.takeWhile isPySpace ++ l.dropWhile isPySpace = l :=
        List.takeWhile_append_dropWhile isPySpace l
      rw [heq] at hsplit
      exact hsplit.symm
  · rintro ⟨ws, rest, hl, hws⟩
    unfold parenAfterWs
    rw [hl, dropWhile_all_append _ _ _ hws, List.dropWhile_cons,
      (by decide : isPySpace '(' = false)]
    simp

lemma matchesFuncRegex_iff (s : String) :
    matchesFuncRegex (lowerL s.data) = true ↔ FuncNotationSpec s := by
  constructor
  · intro h
    unfold matchesFuncRegex at h
    simp only [Bool.or_eq_true, Bool.and_eq_true] at h
    rcases h with ((⟨hp, hq⟩ | ⟨hp, hq⟩) | ⟨hp, hq⟩) | ⟨hp, hq⟩ <;>
      obtain ⟨t, ht⟩ := isPrefixOf_exists _ _ hp <;>
      rw [ht] at hq
    · rw [show ("hsl".data ++ t).drop 3 = t from rfl] at hq
      obtain ⟨ws, rest, hts, hws⟩ := (parenAfterWs_iff t).mp hq
      exact ⟨"hsl", ws, rest, by simp, by rw [ht, hts, List.append_assoc], hws⟩
    · rw [show ("rgb".data ++ t).drop 3 = t from rfl] at hq
      obtain ⟨ws, rest, hts, hws⟩ := (parenAfterWs_iff t).mp hq
      exact ⟨"rgb", ws, rest, by simp, by rw [ht, hts, List.append_assoc], hws⟩
    · rw [show ("hsla".data ++ t).drop 4 = t from rfl] at hq
      obtain ⟨ws, rest, hts, hws⟩ := (parenAfterWs_iff t).mp hq
      exact ⟨"hsla", ws, rest, by simp, by rw [ht, hts, List.append_assoc], hws⟩
    · rw [show ("rgba".data ++ t).drop 4 = t from rfl] at hq
      obtain ⟨ws, rest, hts, hws⟩ := (parenAfterWs_iff t).mp hq
      exact ⟨"rgba", ws, rest, by simp, by rw [ht, hts, List.append_assoc], hws⟩
  · rintro ⟨p, ws, rest, hp4, hl, hws⟩
    have hassoc : ∀ pre : List Char,
        pre ++ ws ++ '(' :: rest = pre ++ (ws ++ '(' :: rest) := by
      intro pre
      rw [List.append_assoc]
    unfold matchesFuncRegex
    simp only [Bool.or_eq_true, Bool.and_eq_true]
    have hparen : parenAfterWs (ws ++ '(' :: rest) = true :=
      (parenAfterWs_iff _).mpr ⟨ws, rest, rfl, hws⟩
    fin_cases hp4
    · refine Or.inl (Or.inl (Or.inl ⟨?_, ?_⟩))
      · rw [hl, hassoc]
        exact isPrefixOf_append_self _ _
      · rw [hl, hassoc]
        exact hparen
    · refine Or.inl (Or.inr ⟨?_, ?_⟩)
      · rw [hl, hassoc]
        exact isPrefixOf_append_self _ _
      · rw [hl, hassoc]
        exact hparen
    · refine Or.inl (Or.inl (Or.inr ⟨?_, ?_⟩))
      · rw [hl, hassoc]
        exact isPrefixOf_append_self _ _
      · rw [hl, hassoc]
        exact hparen
    · refine Or.inr ⟨?_, ?_⟩
      · rw [hl, hassoc]
        exact isPrefixOf_append_self _ _
      · rw [hl, hassoc]
        exact hparen

lemma is_color_value_iff_spec (s : String) :
    is_color_value s = true ↔ IsColorValueSpec s := by
  unfold is_color_value isColorValueCore IsColorValueSpec
  simp only [Bool.or_eq_true]
  constructor
  · rintro ((h | h) | h)
    · exact Or.inl ((matchesHexRegex_iff s).mp h)
    · refine Or.inr (Or.inl ?_)
      rw [← List.elem_iff]
      exact h
    · exact Or.inr (Or.inr ((matchesFuncRegex_iff s).mp h))
  · rintro (h | h | h)
    · exact Or.inl (Or.inl ((matchesHexRegex_iff s).mpr h))
    · refine Or.inl (Or.inr ?_)
      rw [← List.elem_iff] at h
      exact h
    · exact Or.inr ((matchesFuncRegex_iff s).mpr h)

/-! ### Brace accounting for the emitted block -/


lemma data_append (s t : String) : (s ++ t).data = s.data ++ t.data := by
  cases s
  cases t
  rfl

lemma braceFree_append (s t : String) (hs : braceFree s) (ht : braceFree t) :
    braceFree (s ++ t) := by
  unfold braceFree at hs ht ⊢
  rw [data_append, List.count_append, List.count_append]
  omega

lemma digitChar_range (n : Nat) :
    48 ≤ (digitChar n).toNat ∧ (digitChar n).toNat ≤ 57 := by
  unfold digitChar
  split_ifs <;> decide

lemma mem_natToCharsAux (fuel n : Nat) (c : Char)
    (h : c ∈ natToCharsAux fuel n) : 48 ≤ c.toNat ∧ c.toNat ≤ 57 := by
  induction fuel generalizing n with
  | zero => simp [natToCharsAux] at h
  | succ m ih =>
    rw [natToCharsAux] at h
    split at h
    · rw [List.mem_singleton] at h
      rw [h]
      exact digitChar_range n
    · rw [List.mem_append] at h
      rcases h with h | h
      · exact ih _ h
      · rw [List.mem_singleton] at h
        rw [h]
        exact digitChar_range _

lemma intToStr_braceFree (i : Int) : braceFree (intToStr i) := by
  unfold braceFree intToStr
  cases i with
  | ofNat m =>
    simp only []
    constructor <;>
      (rw [List.count_eq_zero]
       intro hmem
       have := mem_natToCharsAux _ _ _ hmem
       simp at this)
  | negSucc m =>
    simp only []
    constructor <;>
      (rw [List.count_cons_of_ne (by decide), List.count_eq_zero]
       intro hmem
       have := mem_natToCharsAux _ _ _ hmem
       simp at this)

lemma lookupVar_mem (k : String) (l : List (String × String)) (v : String)
    (hv : lookupVar k l = some v) : v ∈ l.map Prod.snd := by
  induction l with
  | nil => simp [lookupVar] at hv
  | cons p rest ih =>
    obtain ⟨k', v'⟩ := p
    rw [lookupVar] at hv
    split_ifs at hv with he
    · rw [Option.some_inj] at hv
      simp [hv]
    · simp [ih hv]

lemma mapping_values_braceFree :
    ∀ v ∈ get_variable_mapping.map Prod.snd,
      v.data.count '\x7b' = 0 ∧ v.data.count '\x7d' = 0 := by
  decide

lemma cssVarFor_braceFree (n : String) (hn : braceFree n) :
    braceFree (cssVarFor n) := by
  unfold cssVarFor
  cases hv : lookupVar n get_variable_mapping with
  | some v => exact mapping_values_braceFree v (lookupVar_mem _ _ _ hv)
  | none =>
    refine braceFree_append _ _ ⟨by decide, by decide⟩ hn

lemma braceFree_lit_deg : braceFree "deg;" := ⟨by decide, by decide⟩
lemma braceFree_lit_pct : braceFree "%;" := ⟨by decide, by decide⟩

lemma convertEntry_braceFree (n v : String) (hn : braceFree n) (hv : braceFree v)
    (ds : List String) (hds : convertEntry n v = .ok ds) :
    ∀ d ∈ ds, braceFree d := by
  have hcss := cssVarFor_braceFree n hn
  unfold convertEntry at hds
  split_ifs at hds with hc
  · cases hh : hex_to_hsl v with
    | ok t =>
      obtain ⟨h1, s1, l1⟩ := t
      rw [hh] at hds
      simp only [Except.ok.injEq] at hds
      subst hds
      intro d hd
      simp only [List.mem_cons, List.not_mem_nil, or_false] at hd
      rcases hd with hd | hd | hd <;> subst hd <;>
        refine braceFree_append _ _ (braceFree_append _ _ (braceFree_append _ _
          (braceFree_append _ _ ⟨by decide, by decide⟩ hcss)
          ⟨by decide, by decide⟩) (intToStr_braceFree _)) ⟨by decide, by decide⟩
    | error e =>
      rw [hh] at hds
      cases e with
      | valueError =>
        simp only [Except.ok.injEq] at hds
        subst hds
        intro d hd
        simp only [List.mem_singleton] at hd
        subst hd
        exact braceFree_append _ _ (braceFree_append _ _ (braceFree_append _ _
          (braceFree_append _ _ ⟨by decide, by decide⟩ hcss)
          ⟨by decide, by decide⟩) hv) ⟨by decide, by decide⟩
      | zeroDivisionError => simp at hds
  · simp only [Except.ok.injEq] at hds
    subst hds
    intro d hd
    simp only [List.mem_singleton] at hd
    subst hd
    exact braceFree_append _ _ (braceFree_append _ _ (braceFree_append _ _
      (braceFree_append _ _ ⟨by decide, by decide⟩ hcss)
      ⟨by decide, by decide⟩) hv) ⟨by decide, by decide⟩

lemma joinLines_braceFree (ds : List String) (h : ∀ d ∈ ds, braceFree d) :
    braceFree (joinLines ds) := by
  induction ds with
  | nil => exact ⟨by decide, by decide⟩
  | cons d rest ih =>
    cases rest with
    | nil =>
      rw [joinLines]
      exact h d (by simp)
    | cons e es =>
      show braceFree (d ++ "\n" ++ joinLines (e :: es))
      refine braceFree_append _ _ (braceFree_append _ _ (h d (by simp))
        ⟨by decide, by decide⟩) (ih fun x hx => h x (by simp [hx]))

lemma convertDecls_braceFree (l : List (String × String))
    (h : ∀ p ∈ l, braceFree p.1 ∧ braceFree p.2)
    (ds : List String) (hds : convertDecls l = .ok ds) :
    ∀ d ∈ ds, braceFree d := by
  induction l generalizing ds with
  | nil =>
    rw [convertDecls] at hds
    simp only [Except.ok.injEq] at hds
    subst hds
    simp
  | cons p rest ih =>
    obtain ⟨n, v⟩ := p
    rw [convertDecls] at hds
    cases he : convertEntry n v with
    | error e =>
      rw [he] at hds
      simp at hds
    | ok d1 =>
      rw [he] at hds
      cases hr : convertDecls rest with
      | error e =>
        rw [hr] at hds
        simp at hds
      | ok ds1 =>
        rw [hr] at hds
        simp only [Except.ok.injEq] at hds
        subst hds
        intro d hd
        rw [List.mem_append] at hd
        rcases hd with hd | hd
        · exact convertEntry_braceFree n v (h (n, v) (by simp)).1
            (h (n, v) (by simp)).2 d1 he d hd
        · exact ih (fun q hq => h q (by simp [hq])) ds1 hr d hd

lemma convertDecls_ne_nil (p : String × String) (rest : List (String × String))
    (ds : List String) (hds : convertDecls (p :: rest) = .ok ds) : ds ≠ [] := by
  obtain ⟨n, v⟩ := p
  rw [convertDecls] at hds
  obtain ⟨d1, hd1, hlen⟩ := convertEntry_ok n v
  rw [hd1] at hds
  cases hr : convertDecls rest with
  | error e =>
    rw [hr] at hds
    simp at hds
  | ok ds1 =>
    rw [hr] at hds
    simp only [Except.ok.injEq] at hds
    subst hds
    intro hcon
    rw [List.append_eq_nil] at hcon
    rw [hcon.1] at hlen
    simp at hlen

/-- For a nonempty mapping, `convert` wraps the joined declarations in the
`:root` block; with brace-free names and values the block contributes the
only two braces. -/
lemma convert_nonempty_shape (l : List (String × String)) (hne : l ≠ [])
    (hb : ∀ p ∈ l, braceFree p.1 ∧ braceFree p.2) :
    ∃ ds, convertDecls l = .ok ds ∧
      convert_sass_variables_to_css l =
        .ok (":root \x7b\n" ++ joinLines ds ++ "\n\x7d\n") ∧
      braceFree (joinLines ds) := by
  obtain ⟨ds, hds⟩ := convertDecls_ok l
  refine ⟨ds, hds, ?_, joinLines_braceFree ds (convertDecls_braceFree l hb ds hds)⟩
  unfold convert_sass_variables_to_css
  rw [if_neg (by simp [List.isEmpty_iff, hne]), hds]
  have hdne : ds ≠ [] := by
    cases l with
    | nil => exact absurd rfl hne
    | cons p rest => exact convertDecls_ne_nil p rest ds hds
  show Except.ok (if ds.isEmpty = true then ""
    else ":root \x7b\n" ++ joinLines ds ++ "\n\x7d\n") = _
  rw [if_neg (by simp [List.isEmpty_iff, hdne])]

lemma wrapped_count (body : String) (hb : braceFree body) :
    (":root \x7b\n" ++ body ++ "\n\x7d\n").data.count '\x7b' = 1 ∧
    (":root \x7b\n" ++ body ++ "\n\x7d\n").data.count '\x7d' = 1 := by
  rw [data_append, data_append]
  have h1 : (":root \x7b\n" : String).data.count '\x7b' = 1 := by decide
  have h2 : ("\n\x7d\n" : String).data.count '\x7b' = 0 := by decide
  have h3 : (":root \x7b\n" : String).data.count '\x7d' = 0 := by decide
  have h4 : ("\n\x7d\n" : String).data.count '\x7d' = 1 := by decide
  obtain ⟨hb1, hb2⟩ := hb
  constructor
  · rw [List.count_append, List.count_append, h1, hb1, h2]
  · rw [List.count_append, List.count_append, h3, hb2, h4]




lemma hsl_m15_all : hslFromRGB (-15) (-15) (-15) = .ok (0, 0, -6) := by
  unfold hslFromRGB hslTriple
  norm_num [max_def, min_def]
  exact pyround_eq_low _ (-6) (by norm_num) (by norm_num)

lemma hexToHsl_mfmfmf : hex_to_hsl "-f-f-f" = .ok (0, 0, -6) := by
  rw [hexToHsl_of_parse _ (-15) (-15) (-15) (by decide)]
  exact hsl_m15_all

/-! ### Claim theorems -/

/-- C1 (counterexample): as stated the claim is false — no modulo is applied,
so `hex_to_hsl "#ff0001"` returns hue exactly 360, and sign-accepting parsing
even lets lightness go negative (`hex_to_hsl "-f-f-f"` yields −6). -/
theorem C1_counterexample :
    (¬ ∀ (s : String) (h sa l : Int), hex_to_hsl s = .ok (h, sa, l) →
        0 ≤ h ∧ h < 360 ∧ 0 ≤ sa ∧ sa ≤ 100 ∧ 0 ≤ l ∧ l ≤ 100) ∧
    hex_to_hsl "#ff0001" = .ok (360, 100, 50) ∧
    hex_to_hsl "-f-f-f" = .ok (0, 0, -6) := by
  refine ⟨?_, hexToHsl_ff0001, hexToHsl_mfmfmf⟩
  intro hcl
  have := hcl "#ff0001" 360 100 50 hexToHsl_ff0001
  omega

/-- C1 (amended): for every input whose normalized form is exactly 6 hex
digits, the returned hue is an integer in `[0, 360]` (360 is attainable, no
modulo is applied) and saturation and lightness are integers in `[0, 100]`. -/
theorem C1_hsl_bounds :
    ∀ (s : String) (h sa l : Int),
      (normalizeHex s.data).length = 6 →
      (normalizeHex s.data).all isHexDigit = true →
      hex_to_hsl s = .ok (h, sa, l) →
      0 ≤ h ∧ h ≤ 360 ∧ 0 ≤ sa ∧ sa ≤ 100 ∧ 0 ≤ l ∧ l ≤ 100 := by
  intro s h sa l h6 hall hok
  obtain ⟨r, g, b, hp, h1, h2, h3, h4, h5, h6b⟩ := parse3_hex6 _ h6 hall
  rw [hexToHsl_of_parse s r g b hp] at hok
  obtain ⟨hh, ss, ll, hok2, hbnd⟩ := hslFromRGB_ok_bounds r g b h1 h2 h3 h4 h5 h6b
  rw [hok2] at hok
  simp only [Except.ok.injEq, Prod.mk.injEq] at hok
  obtain ⟨e1, e2, e3⟩ := hok
  subst e1
  subst e2
  subst e3
  exact hbnd

theorem C1_hsl_bounds_witness :
    0 ≤ (211 : Int) ∧ (211 : Int) ≤ 360 ∧ 0 ≤ (100 : Int) ∧ (100 : Int) ≤ 100 ∧
    0 ≤ (50 : Int) ∧ (50 : Int) ≤ 100 :=
  C1_hsl_bounds "#007bff" 211 100 50 (by decide) (by decide) hexToHsl_007bff

/-- C2 (counterexample): the implemented classifier is not the claimed one —
the hex regex accepts 3 to 6 digits, so `"#abcd"` (4 digits) is classified
as a color although the claim allows exactly 3 or 6. -/
theorem C2_counterexample :
    ¬ ∀ s : String, is_color_value s = isColorValueClaimed s := by
  intro hcl
  have h := hcl "#abcd"
  rw [show is_color_value "#abcd" = true from by decide,
      show isColorValueClaimed "#abcd" = false from by decide] at h
  exact absurd h (by simp)

/-- C2 (amended): `is_color_value` returns true iff the value is `#` followed
by 3–6 hex digits (optionally with one trailing newline, which the regex `$`
tolerates), a case-insensitive named color, or a case-insensitive
`hsl`/`hsla`/`rgb`/`rgba` head followed by optional whitespace and `(`.
As a plain function it is trivially pure. -/
theorem C2_classifier_spec :
    ∀ s : String, is_color_value s = true ↔ IsColorValueSpec s :=
  is_color_value_iff_spec

/-- C3: `convert` never raises for any input mapping; when `hex_to_hsl` fails
with `ValueError` on a value that `is_color_value` accepted, the entry
silently degrades to the single direct declaration `{base}: {value};` instead
of the three HSL declarations — exercised on the color-like `"#abcd"` (4 hex
digits pass the classifier but fail conversion) — and the non-color-like
`"not-a-valid-color"` likewise yields its single pass-through declaration. -/
theorem C3_convert_never_raises :
    (∀ l : List (String × String), ∃ out, convert_sass_variables_to_css l = .ok out) ∧
    (∀ n v : String, is_color_value v = true →
        hex_to_hsl v = .error .valueError →
        convertEntry n v = .ok ["  " ++ cssVarFor n ++ ": " ++ v ++ ";"]) ∧
    is_color_value "#abcd" = true ∧
    hex_to_hsl "#abcd" = .error .valueError ∧
    convert_sass_variables_to_css [("primary", "#abcd")] =
      .ok ":root \x7b\n  --bulma-primary: #abcd;\n\x7d\n" ∧
    hasSub "--bulma-primary-h:".data
      ":root \x7b\n  --bulma-primary: #abcd;\n\x7d\n".data = false ∧
    convert_sass_variables_to_css [("primary", "not-a-valid-color")] =
      .ok ":root \x7b\n  --bulma-primary: not-a-valid-color;\n\x7d\n" ∧
    hasSub "--bulma-primary: not-a-valid-color;".data
      ":root \x7b\n  --bulma-primary: not-a-valid-color;\n\x7d\n".data = true ∧
    hasSub "--bulma-primary-h:".data
      ":root \x7b\n  --bulma-primary: not-a-valid-color;\n\x7d\n".data = false :=
  ⟨convert_ok, fun n v _ he => convertEntry_plain n v (Or.inr he),
   by decide, by decide, by decide, by decide, by decide, by decide, by decide⟩

theorem C3_convert_never_raises_witness :
    convertEntry "primary" "#abcd" =
      .ok ["  " ++ cssVarFor "primary" ++ ": " ++ "#abcd" ++ ";"] :=
  C3_convert_never_raises.2.1 "primary" "#abcd" (by decide) (by decide)

/-- C4 (counterexample): failure is not exactly "normalized string is not 6
hex digits": `"ffff-f"` normalizes to itself, is not all hex digits, yet
`hex_to_hsl` succeeds because Python `int(_, 16)` accepts a signed digit. -/
theorem C4_counterexample :
    ¬ ∀ s : String,
        (∃ e, hex_to_hsl s = .error e) ↔
        ¬((normalizeHex s.data).length = 6 ∧
          (normalizeHex s.data).all isHexDigit = true) := by
  intro hcl
  obtain ⟨e, he⟩ := (hcl "ffff-f").mpr (by decide)
  rw [hexToHsl_ffffmf] at he
  exact absurd he (by simp)

/-- C4 (amended): `hex_to_hsl` fails with `ValueError` exactly when the
normalize-and-parse phase fails (length ≠ 6, or a 2-character slice rejected
by `int(_, 16)`, which also accepts signs and blank padding); a second
failure mode, `ZeroDivisionError`, exists for sign-containing inputs such as
`"0f-f00"`.  `"not-a-color"` and `"#12345"` both fail with `ValueError`. -/
theorem C4_failure_modes :
    (∀ s : String, hex_to_hsl s = .error .valueError ↔
        parse3 (normalizeHex s.data) = .error .valueError) ∧
    hex_to_hsl "not-a-color" = .error .valueError ∧
    hex_to_hsl "#12345" = .error .valueError ∧
    hex_to_hsl "0f-f00" = .error .zeroDivisionError :=
  ⟨hexToHsl_VE_iff, by decide, by decide, hexToHsl_0fmf00⟩

/-- C5: each key yields exactly three declarations (color-like value whose
conversion succeeds) or exactly one (anything else); the base name comes from
the mapping table, with `--bulma-{name}` synthesized for unmapped names. -/
theorem C5_entry_declarations :
    (∀ (n v : String) (hh ss ll : Int), is_color_value v = true →
        hex_to_hsl v = .ok (hh, ss, ll) →
        convertEntry n v = .ok
          ["  " ++ cssVarFor n ++ "-h: " ++ intToStr hh ++ "deg;",
           "  " ++ cssVarFor n ++ "-s: " ++ intToStr ss ++ "%;",
           "  " ++ cssVarFor n ++ "-l: " ++ intToStr ll ++ "%;"]) ∧
    (∀ n v : String,
        (is_color_value v = false ∨ hex_to_hsl v = .error .valueError) →
        convertEntry n v = .ok ["  " ++ cssVarFor n ++ ": " ++ v ++ ";"]) ∧
    (∀ n v : String, ∃ ds, convertEntry n v = .ok ds ∧
        (ds.length = 3 ∨ ds.length = 1)) ∧
    (∀ n : String, lookupVar n get_variable_mapping = none →
        cssVarFor n = "--bulma-" ++ n) ∧
    convert_sass_variables_to_css [("custom-var", "5px")] =
      .ok ":root \x7b\n  --bulma-custom-var: 5px;\n\x7d\n" := by
  refine ⟨fun n v hh ss ll hc hok => convertEntry_color n v hh ss ll hc hok,
          fun n v hc => convertEntry_plain n v hc,
          fun n v => convertEntry_ok n v,
          fun n hnone => ?_, by decide⟩
  unfold cssVarFor
  rw [hnone]

theorem C5_entry_declarations_witness :
    convertEntry "primary" "#007bff" = .ok
      ["  " ++ cssVarFor "primary" ++ "-h: " ++ intToStr 211 ++ "deg;",
       "  " ++ cssVarFor "primary" ++ "-s: " ++ intToStr 100 ++ "%;",
       "  " ++ cssVarFor "primary" ++ "-l: " ++ intToStr 50 ++ "%;"] :=
  C5_entry_declarations.1 "primary" "#007bff" 211 100 50 (by decide)
    hexToHsl_007bff

/-- C6 (counterexample): with a brace in a variable *name* (which the claim's
proviso does not exclude), the output contains two opening braces. -/
theorem C6_counterexample :
    ¬ ∀ (l : List (String × String)) (out : String), l ≠ [] →
        (∀ p ∈ l, braceFree p.2) →
        convert_sass_variables_to_css l = .ok out →
        out.data.count '\x7b' = 1 ∧ out.data.count '\x7d' = 1 := by
  intro hcl
  have h := hcl [("a\x7b", "5px")] ":root \x7b\n  --bulma-a\x7b: 5px;\n\x7d\n"
    (by simp)
    (by
      intro p hp
      simp only [List.mem_singleton] at hp
      subst hp
      exact ⟨by decide, by decide⟩)
    (by decide)
  have h2 : (":root \x7b\n  --bulma-a\x7b: 5px;\n\x7d\n" : String).data.count '\x7b'
      = 2 := by decide
  rw [h2] at h
  exact absurd h.1 (by norm_num)

/-- C6 (amended): the empty mapping yields the empty string, and every
non-empty mapping whose names *and* values are brace-free yields a single
`:root` block with exactly one opening and one closing brace and a trailing
newline after the closing brace. -/
theorem C6_block_structure :
    convert_sass_variables_to_css [] = .ok "" ∧
    ∀ l : List (String × String), l ≠ [] →
      (∀ p ∈ l, braceFree p.1 ∧ braceFree p.2) →
      ∃ ds, convertDecls l = .ok ds ∧
        convert_sass_variables_to_css l =
          .ok (":root \x7b\n" ++ joinLines ds ++ "\n\x7d\n") ∧
        (":root \x7b\n" ++ joinLines ds ++ "\n\x7d\n").data.count '\x7b' = 1 ∧
        (":root \x7b\n" ++ joinLines ds ++ "\n\x7d\n").data.count '\x7d' = 1 := by
  refine ⟨by decide, fun l hne hb => ?_⟩
  obtain ⟨ds, hds, hconv, hbf⟩ := convert_nonempty_shape l hne hb
  exact ⟨ds, hds, hconv, (wrapped_count _ hbf).1, (wrapped_count _ hbf).2⟩

theorem C6_block_structure_witness :
    ∃ ds, convertDecls [("custom-var", "5px")] = .ok ds ∧
      convert_sass_variables_to_css [("custom-var", "5px")] =
        .ok (":root \x7b\n" ++ joinLines ds ++ "\n\x7d\n") ∧
      (":root \x7b\n" ++ joinLines ds ++ "\n\x7d\n").data.count '\x7b' = 1 ∧
      (":root \x7b\n" ++ joinLines ds ++ "\n\x7d\n").data.count '\x7d' = 1 :=
  C6_block_structure.2 [("custom-var", "5px")] (by simp)
    (by
      intro p hp
      simp only [List.mem_singleton] at hp
      subst hp
      exact ⟨⟨by decide, by decide⟩, by decide, by decide⟩)

/-- C7: 3-digit expansion and named-color equivalences, with the exact
reference triples. -/
theorem C7_equivalences :
    hex_to_hsl "#f00" = hex_to_hsl "#ff0000" ∧
    hex_to_hsl "#ff0000" = hex_to_hsl "red" ∧
    hex_to_hsl "#f00" = .ok (0, 100, 50) ∧
    hex_to_hsl "white" = .ok (0, 0, 100) ∧
    hex_to_hsl "black" = .ok (0, 0, 0) :=
  ⟨by rw [hexToHsl_f00, hexToHsl_ff0000],
   by rw [hexToHsl_ff0000, hexToHsl_red],
   hexToHsl_f00, hexToHsl_white, hexToHsl_black⟩

/-- C8: equal parsed channels (diff = 0) give hue 0 and saturation 0;
`#808080` is the concrete achromatic witness. -/
theorem C8_achromatic_case :
    (∀ (s : String) (r : Int), parse3 (normalizeHex s.data) = .ok (r, r, r) →
        ∃ l, hex_to_hsl s = .ok (0, 0, l)) ∧
    hex_to_hsl "#808080" = .ok (0, 0, 50) :=
  ⟨fun s r hp => hexToHsl_achromatic s r hp, hexToHsl_808080⟩

theorem C8_achromatic_case_witness :
    ∃ l, hex_to_hsl "#808080" = .ok (0, 0, l) :=
  C8_achromatic_case.1 "#808080" 128 (by decide)

/-- C9: the reference vector `#007bff` gives exactly (211, 100, 50) — hue
within ±1 of 211 as claimed — and `convert` emits the three expected lines
inside a single `:root` block with one brace of each kind. -/
theorem C9_known_vector :
    (∃ h : Int, hex_to_hsl "#007bff" = .ok (h, 100, 50) ∧
      -1 ≤ h - 211 ∧ h - 211 ≤ 1) ∧
    convert_sass_variables_to_css [("primary", "#007bff")] =
      .ok ":root \x7b\n  --bulma-primary-h: 211deg;\n  --bulma-primary-s: 100%;\n  --bulma-primary-l: 50%;\n\x7d\n" ∧
    hasSub "--bulma-primary-h: 211deg;".data
      ":root \x7b\n  --bulma-primary-h: 211deg;\n  --bulma-primary-s: 100%;\n  --bulma-primary-l: 50%;\n\x7d\n".data = true ∧
    hasSub "--bulma-primary-s: 100%;".data
      ":root \x7b\n  --bulma-primary-h: 211deg;\n  --bulma-primary-s: 100%;\n  --bulma-primary-l: 50%;\n\x7d\n".data = true ∧
    hasSub "--bulma-primary-l: 50%;".data
      ":root \x7b\n  --bulma-primary-h: 211deg;\n  --bulma-primary-s: 100%;\n  --bulma-primary-l: 50%;\n\x7d\n".data = true ∧
    (":root \x7b\n  --bulma-primary-h: 211deg;\n  --bulma-primary-s: 100%;\n  --bulma-primary-l: 50%;\n\x7d\n" : String).data.count '\x7b' = 1 ∧
    (":root \x7b\n  --bulma-primary-h: 211deg;\n  --bulma-primary-s: 100%;\n  --bulma-primary-l: 50%;\n\x7d\n" : String).data.count '\x7d' = 1 :=
  ⟨⟨211, hexToHsl_007bff, by norm_num, by norm_num⟩, convert_007bff,
   by decide, by decide, by decide, by decide, by decide⟩

/-- C10: every run of one or more leading `#` characters is stripped, so any
number of them is equivalent to one. -/
theorem C10_hash_stripping :
    (∀ (n : Nat) (cs : List Char), 1 ≤ n → cs.all isHexDigit = true →
        (cs.length = 3 ∨ cs.length = 6) →
        hex_to_hsl ⟨List.replicate n '#' ++ cs⟩ = hex_to_hsl ⟨'#' :: cs⟩) ∧
    hex_to_hsl "##ff0000" = hex_to_hsl "#ff0000" ∧
    (hex_to_hsl "##ff0000").isOk = true := by
  refine ⟨?_, ?_, ?_⟩
  · intro n cs hn hhex hlen
    have hne : cs ≠ [] := by
      intro h0
      rw [h0] at hlen
      simp at hlen
    show hexToHslCore (List.replicate n '#' ++ cs) = hexToHslCore ('#' :: cs)
    rw [hexToHslCore, hexToHslCore, normalizeHex_replicate n hn cs hne hhex]
  · rw [hexToHsl_of_parse "##ff0000" 255 0 0 (by decide),
      hexToHsl_of_parse "#ff0000" 255 0 0 (by decide)]
  · rw [hexToHsl_of_parse "##ff0000" 255 0 0 (by decide), hsl_255_0_0]
    rfl

theorem C10_hash_stripping_witness :
    hex_to_hsl ⟨List.replicate 2 '#' ++ "ff0000".data⟩ =
      hex_to_hsl ⟨'#' :: "ff0000".data⟩ :=
  C10_hash_stripping.1 2 "ff0000".data (by norm_num) (by decide) (by decide)
